import Mathlib

/-!
Verification of the eventshub REST service (Go) against its specification.

The development shallowly embeds the program: the proleptic-Gregorian
calendar arithmetic of Go's `time` package (used by `dateTimeToUnix` /
`unixToDateTime` in `service/v1/rest/utils.go`), time zones as transition
lists (modelling the loaded `Europe/Warsaw` IANA zone), the SQLite-backed
event repository (`service/v1/rest/database.go`) as explicit state passing
over lists of rows, the canonical event serialization and content hash
(`structures.go`), the JWT token lifecycle (`tokens.go`) and the HTTP
handlers that the claims mention (`handlers.go`).  Machine integers are
modelled as unbounded `Int`; the Go code stores times in `int64` and
calendar fields in `int32`, far from overflow on the ranges involved.
-/

namespace EventsHub

/-! ## Calendar arithmetic (Go `time` package core)

Go's `time.Date` and `Time.Date` convert between calendar fields and an
absolute day count through 400/100/4-year cycle arithmetic over a count of
days since January 1 of year 1.  Go offsets everything by a huge constant so
that unsigned truncating division acts as floor division; we use `Int` with
Lean's `/` and `%` (Euclidean, which for the positive divisors used here is
floor division), which agrees with Go on the entire range the server can
store. -/

/-- Leap year test, as Go `isLeap`. -/
def isLeap (y : Int) : Bool := y % 4 == 0 && (y % 100 != 0 || y % 400 == 0)

/-- Cumulative days before month `m+1` in a non-leap year: Go's `daysBefore`
array, as a function; `daysBefore 0 = 0`, `daysBefore 12 = 365`. -/
def daysBefore (m : Int) : Int :=
  if m ≤ 0 then 0
  else if m = 1 then 31
  else if m = 2 then 59
  else if m = 3 then 90
  else if m = 4 then 120
  else if m = 5 then 151
  else if m = 6 then 181
  else if m = 7 then 212
  else if m = 8 then 243
  else if m = 9 then 273
  else if m = 10 then 304
  else if m = 11 then 334
  else 365

/-- Month and day-of-month from a zero-based day of year, as in the month
estimation step of Go's `absDate`. -/
def mdFromYday (leap : Bool) (yday : Int) : Int × Int :=
  if leap && yday == 59 then (2, 29)
  else
    let day := if leap && 59 < yday then yday - 1 else yday
    let mEst := day / 31
    if daysBefore (mEst + 1) ≤ day then (mEst + 2, day - daysBefore (mEst + 1) + 1)
    else (mEst + 1, day - daysBefore mEst + 1)

/-- Decompose a count of days since January 1 of year 1 into
`(year, month, day)`: Go's `absDate` cycle arithmetic. -/
def daysToDate (days : Int) : Int × Int × Int :=
  let n400 := days / 146097
  let d1 := days - 146097 * n400
  let q100 := d1 / 36524
  let n100 := q100 - q100 / 4
  let d2 := d1 - 36524 * n100
  let n4 := d2 / 1461
  let d3 := d2 - 1461 * n4
  let q1 := d3 / 365
  let n1 := q1 - q1 / 4
  let yday := d3 - 365 * n1
  let year := 400 * n400 + 100 * n100 + 4 * n4 + n1 + 1
  let md := mdFromYday (isLeap year) yday
  (year, md.1, md.2)

/-- Days from January 1 of year 1 to January 1 of `year`: Go's
`daysSinceEpoch`. -/
def daysFromAbsYear (year : Int) : Int :=
  let y := year - 1
  let n400 := y / 400
  let r1 := y - 400 * n400
  let n100 := r1 / 100
  let r2 := r1 - 100 * n100
  let n4 := r2 / 4
  let r3 := r2 - 4 * n4
  146097 * n400 + 36524 * n100 + 1461 * n4 + 365 * r3

/-- Compose `(year, month, day)` into days since January 1 of year 1: the
day-level part of Go's `time.Date`. -/
def dateToDays (year month day : Int) : Int :=
  daysFromAbsYear year + daysBefore (month - 1) +
    (if isLeap year && 3 ≤ month then 1 else 0) + (day - 1)

/-- Field normalization step of Go's `time.Date` (`norm`): returns
`(hi + lo / base, lo % base)`. -/
def normPair (hi lo base : Int) : Int × Int := (hi + lo / base, lo % base)

/-- Days between January 1 of year 1 and January 1 of 1970
(Go `unixToInternal / secondsPerDay`). -/
def unixEpochDays : Int := 719162

/-! ## Time zones

A loaded IANA zone is a base UTC offset plus a finite ascending list of
`(transition time, offset from then on)` pairs — the shape Go's
`time.Location` lookup works over.  `Tz.lookup` mirrors Go's
`Location.lookup`: it returns the offset in force at an instant together
with the start and end of the zone era containing it (`none` meaning
unbounded, Go's `alpha`/`omega` sentinels). -/

structure Tz where
  base : Int
  trans : List (Int × Int)
deriving DecidableEq

def offAux (cur : Int) : List (Int × Int) → Int → Int
  | [], _ => cur
  | (tt, o) :: rest, x => if x < tt then cur else offAux o rest x

/-- UTC offset (seconds) in force at instant `x`. -/
def Tz.off (z : Tz) (x : Int) : Int := offAux z.base z.trans x

def lookupAux (cur : Int) (st : Option Int) :
    List (Int × Int) → Int → Int × Option Int × Option Int
  | [], _ => (cur, st, none)
  | (tt, o) :: rest, x => if x < tt then (cur, st, some tt) else lookupAux o (some tt) rest x

/-- Offset, era start and era end at instant `x`, as Go's `Location.lookup`. -/
def Tz.lookup (z : Tz) (x : Int) : Int × Option Int × Option Int :=
  lookupAux z.base none z.trans x

/-- Go's `case utc < start` test against the era start (`none` is the
unbounded past, Go's `alpha`). -/
def startBelow (utc : Int) : Option Int → Bool
  | some s => decide (utc < s)
  | none => false

/-- Go's `case utc >= end` test against the era end (`none` is the
unbounded future, Go's `omega`). -/
def endAbove (utc : Int) : Option Int → Bool
  | some e => decide (e ≤ utc)
  | none => false

/-- The zone-offset selection of Go's `time.Date`: `secs` is the local
civil time in seconds; the returned instant is `secs` minus the offset that
`time.Date` settles on after its two-sided era correction. -/
def dateAdjust (z : Tz) (secs : Int) : Int :=
  let lk := z.lookup secs
  let offset := lk.1
  if offset = 0 then secs
  else
    let utc := secs - offset
    if startBelow utc lk.2.1 then secs - z.off ((lk.2.1).getD 0 - 1)
    else if endAbove utc lk.2.2 then secs - z.off ((lk.2.2).getD 0)
    else secs - offset

/-- Sanity conditions every real loaded zone (in particular Europe/Warsaw)
satisfies: offsets at most a day in magnitude, transitions and offsets on
whole minutes, and consecutive transitions at least three days apart. -/
def offsOK : List (Int × Int) → Bool
  | [] => true
  | (tt, o) :: rest =>
    tt % 60 == 0 && o % 60 == 0 && decide (-86400 ≤ o) && decide (o ≤ 86400) && offsOK rest

def gapsOK : List (Int × Int) → Bool
  | (t1, _) :: (t2, o2) :: rest => decide (t1 + 259200 ≤ t2) && gapsOK ((t2, o2) :: rest)
  | _ => true

def Tz.WF (z : Tz) : Bool :=
  z.base % 60 == 0 && decide (-86400 ≤ z.base) && decide (z.base ≤ 86400) &&
    offsOK z.trans && gapsOK z.trans

/-- A concrete slice of the Europe/Warsaw zone: CET (+01:00) base with the
EU daylight-saving transitions of 2024 and 2025 (CEST is +02:00). -/
def warsaw : Tz :=
  { base := 3600,
    trans := [(1711846800, 7200), (1729990800, 3600), (1743296400, 7200), (1761440400, 3600)] }

/-! ## The temporal codec (`utils.go`) -/

/-- The wire `DateTime` structure (`structures.go`): a `__type__`
discriminator plus calendar fields. -/
structure DateTime where
  type : String
  Year : Int
  Month : Int
  Day : Int
  Hour : Int
  Minute : Int
deriving DecidableEq

def DateTimeStructName : String := "DateTime"
def EventDataStructName : String := "EventData"
def ResponseStatusName : String := "ResponseStatus"
def GetEventsRespName : String := "GetEventsResp"
def KillRespName : String := "KillResp"
def VERSION : String := "1.1.0"

/-- `unixToDateTime` (`utils.go`): decompose a Unix instant in the loaded
zone, truncating seconds. -/
def unixToDateTime (z : Tz) (t : Int) : DateTime :=
  let loc := t + z.off t
  let days := loc / 86400
  let rem := loc % 86400
  let ymd := daysToDate (days + unixEpochDays)
  { type := DateTimeStructName, Year := ymd.1, Month := ymd.2.1, Day := ymd.2.2,
    Hour := rem / 3600, Minute := (rem % 3600) / 60 }

/-- `dateTimeToUnix` (`utils.go`): Go's `time.Date(...).Unix()` on the
calendar fields with seconds zero. -/
def dateTimeToUnix (z : Tz) (d : DateTime) : Int :=
  let ym := normPair d.Year (d.Month - 1) 12
  let month := ym.2 + 1
  let hm := normPair d.Hour d.Minute 60
  let dh := normPair d.Day hm.1 24
  let secs := 86400 * (dateToDays ym.1 month dh.1 - unixEpochDays) +
    3600 * dh.2 + 60 * hm.2
  dateAdjust z secs

/-! ## Calendar round-trip lemmas -/

/-- Correctness of the month/day table step at a single day-of-year. -/
def mdOK (leap : Bool) (n : Nat) : Prop :=
  daysBefore ((mdFromYday leap (n : Int)).1 - 1) +
      (if leap && 3 ≤ (mdFromYday leap (n : Int)).1 then 1 else 0) +
      ((mdFromYday leap (n : Int)).2 - 1) = (n : Int) ∧
    1 ≤ (mdFromYday leap (n : Int)).1 ∧ (mdFromYday leap (n : Int)).1 ≤ 12

instance (leap : Bool) (n : Nat) : Decidable (mdOK leap n) := by
  unfold mdOK; infer_instance

set_option maxHeartbeats 4000000 in
set_option maxRecDepth 100000 in
theorem mdFromYday_correct : ∀ n : Nat, n < 366 → (mdOK true n ∧ (n ≤ 364 → mdOK false n)) := by
  decide

/-- The 100/4/1-year cycle decomposition of Go's `absDate`, within one
400-year cycle: bounds, the start-of-year identity, and the correlation of
a 366th day with the cycle-relative leap condition. -/
theorem cycleYear (d0 q100 n100 d2 n4 d3 q1 n1 yday yc : Int)
    (h0 : 0 ≤ d0) (h1 : d0 < 146097)
    (hq100 : q100 = d0 / 36524) (hn100 : n100 = q100 - q100 / 4)
    (hd2 : d2 = d0 - 36524 * n100)
    (hn4 : n4 = d2 / 1461) (hd3 : d3 = d2 - 1461 * n4)
    (hq1 : q1 = d3 / 365) (hn1 : n1 = q1 - q1 / 4)
    (hyday : yday = d3 - 365 * n1)
    (hyc : yc = 100 * n100 + 4 * n4 + n1) :
    0 ≤ yc ∧ yc < 400 ∧ yday = d0 - (365 * yc + yc / 4 - yc / 100) ∧ 0 ≤ yday ∧ yday ≤ 365 ∧
      (yday = 365 → ((yc + 1) % 4 = 0 ∧ ((yc + 1) % 100 ≠ 0 ∨ yc = 399))) ∧
      (((yc + 1) % 4 ≠ 0 ∨ ((yc + 1) % 100 = 0 ∧ yc ≠ 399)) → yday ≤ 364) := by
  have hb1 : 0 ≤ n100 ∧ n100 ≤ 3 ∧ 0 ≤ d2 ∧ d2 ≤ 36524 := by omega
  have hb2 : 0 ≤ n4 ∧ n4 ≤ 24 ∧ 0 ≤ d3 ∧ d3 ≤ 1460 := by omega
  have hb3 : 0 ≤ n1 ∧ n1 ≤ 3 ∧ 0 ≤ yday ∧ yday ≤ 365 := by omega
  have hq4 : yc / 4 = 25 * n100 + n4 := by omega
  have hq100' : yc / 100 = n100 := by omega
  refine ⟨by omega, by omega, by omega, by omega, by omega, ?_, ?_⟩
  · intro h365
    exact ⟨by omega, by omega⟩
  · intro h
    omega

theorem daysFromAbsYear_cycle (n400 yc : Int) (h : 0 ≤ yc) (h' : yc < 400) :
    daysFromAbsYear (400 * n400 + yc + 1) = 146097 * n400 + 365 * yc + yc / 4 - yc / 100 := by
  unfold daysFromAbsYear
  simp only []
  omega

theorem isLeap_cycle (n400 yc : Int) (h : 0 ≤ yc) (h' : yc < 400) :
    (isLeap (400 * n400 + yc + 1) = true) ↔
      ((yc + 1) % 4 = 0 ∧ ((yc + 1) % 100 ≠ 0 ∨ yc = 399)) := by
  simp only [isLeap, Bool.and_eq_true, Bool.or_eq_true, beq_iff_eq, bne_iff_ne, ne_eq,
    beq_eq_false_iff_ne]
  omega

/-- Day-level round trip: recomposing the date produced by `daysToDate`
gives back the original day count, and the month lies in `1..12`. -/
theorem daysToDate_correct (A : Int) :
    dateToDays (daysToDate A).1 (daysToDate A).2.1 (daysToDate A).2.2 = A ∧
      1 ≤ (daysToDate A).2.1 ∧ (daysToDate A).2.1 ≤ 12 := by
  unfold daysToDate
  simp only []
  generalize hn400 : A / 146097 = n400
  generalize hd1 : A - 146097 * n400 = d1
  generalize hq100 : d1 / 36524 = q100
  generalize hn100 : q100 - q100 / 4 = n100
  generalize hd2 : d1 - 36524 * n100 = d2
  generalize hn4 : d2 / 1461 = n4
  generalize hd3 : d2 - 1461 * n4 = d3
  generalize hq1 : d3 / 365 = q1
  generalize hn1 : q1 - q1 / 4 = n1
  generalize hyday : d3 - 365 * n1 = yday
  have h0' : 0 ≤ d1 := by omega
  have h1' : d1 < 146097 := by omega
  have hyear : 400 * n400 + 100 * n100 + 4 * n4 + n1 + 1 =
      400 * n400 + (100 * n100 + 4 * n4 + n1) + 1 := by ring
  rw [hyear]
  generalize hyc : 100 * n100 + 4 * n4 + n1 = yc
  obtain ⟨hyc0, hyc1, hydayEq, hyday0, hyday365, hlp1, hlp2⟩ :=
    cycleYear d1 q100 n100 d2 n4 d3 q1 n1 yday yc h0' h1'
      hq100.symm hn100.symm hd2.symm hn4.symm hd3.symm hq1.symm hn1.symm hyday.symm hyc.symm
  have hLiff := isLeap_cycle n400 yc hyc0 hyc1
  have hn : yday.toNat < 366 := by omega
  have hcast : ((yday.toNat : Nat) : Int) = yday := by omega
  have hmd := mdFromYday_correct yday.toNat hn
  have hA : A = 146097 * n400 + d1 := by omega
  cases hL : isLeap (400 * n400 + yc + 1) with
  | true =>
    have hok := hmd.1
    unfold mdOK at hok
    rw [hcast] at hok
    unfold dateToDays
    rw [hL] at *
    rw [daysFromAbsYear_cycle n400 yc hyc0 hyc1]
    omega
  | false =>
    have hy364 : yday ≤ 364 := by
      rcases Int.lt_or_lt_of_ne (a := yday) (b := 365) (by
        intro hcontra
        have := hLiff.mpr (hlp1 hcontra)
        rw [hL] at this
        exact Bool.false_ne_true this) with h | h
      · omega
      · omega
    have hok := (hmd.2 (by omega))
    unfold mdOK at hok
    rw [hcast] at hok
    unfold dateToDays
    rw [hL] at *
    rw [daysFromAbsYear_cycle n400 yc hyc0 hyc1]
    omega

/-! ## Zone lookup lemmas

The correctness of `dateAdjust` (Go `time.Date`'s offset selection) for any
representable local time, over any zone satisfying `Tz.WF`. -/

/-- Constraint on the head transition of a suffix of the transition list. -/
def headGap (s0 : Int) : List (Int × Int) → Prop
  | [] => True
  | (t2, _) :: _ => s0 + 259200 ≤ t2

theorem offAux_lt_head (c y : Int) (l : List (Int × Int))
    (h : ∀ t2 o2 r, l = (t2, o2) :: r → y < t2) : offAux c l y = c := by
  cases l with
  | nil => rfl
  | cons p r =>
    obtain ⟨t2, o2⟩ := p
    simp only [offAux]
    rw [if_pos (h t2 o2 r rfl)]

theorem offAux_bound : ∀ (l : List (Int × Int)) (cur x : Int), offsOK l = true →
    -86400 ≤ cur → cur ≤ 86400 → -86400 ≤ offAux cur l x ∧ offAux cur l x ≤ 86400 := by
  intro l
  induction l with
  | nil => intro cur x _ h1 h2; exact ⟨h1, h2⟩
  | cons p rest ih =>
    obtain ⟨tt, o⟩ := p
    intro cur x hok h1 h2
    simp only [offsOK, Bool.and_eq_true, decide_eq_true_eq, beq_iff_eq] at hok
    obtain ⟨⟨⟨⟨h60t, h60o⟩, hlo⟩, hhi⟩, hrest⟩ := hok
    simp only [offAux]
    split
    · exact ⟨h1, h2⟩
    · exact ih o x hrest hlo hhi

theorem offAux_align : ∀ (l : List (Int × Int)) (cur a b : Int), offsOK l = true →
    a % 60 = 0 → a ≤ b → b < a + 60 → offAux cur l a = offAux cur l b := by
  intro l
  induction l with
  | nil => intro cur a b _ _ _ _; rfl
  | cons p rest ih =>
    obtain ⟨tt, o⟩ := p
    intro cur a b hok ha hab hba
    simp only [offsOK, Bool.and_eq_true, decide_eq_true_eq, beq_iff_eq] at hok
    obtain ⟨⟨⟨⟨htt, h60o⟩, hlo⟩, hhi⟩, hrest⟩ := hok
    simp only [offAux]
    by_cases h1 : a < tt
    · have h2 : b < tt := by omega
      rw [if_pos h1, if_pos h2]
    · have h2 : ¬ b < tt := by omega
      rw [if_neg h1, if_neg h2]
      exact ih o a b hrest ha hab hba

theorem lookup_master (z : Tz) :
    ∀ (l : List (Int × Int)) (cur : Int) (st : Option Int) (x : Int),
      offsOK l = true → gapsOK l = true →
      (∀ y, (∀ s0, st = some s0 → s0 ≤ y) → z.off y = offAux cur l y) →
      (∀ s0, st = some s0 → s0 ≤ x ∧
        ∀ y, s0 - 259200 ≤ y → y < s0 → z.off y = z.off (s0 - 1)) →
      (∀ s0, st = some s0 → headGap s0 l) →
      z.off x = (lookupAux cur st l x).1 ∧
      (∀ y, (∀ s, (lookupAux cur st l x).2.1 = some s → s ≤ y) →
        (∀ e, (lookupAux cur st l x).2.2 = some e → y < e) →
        z.off y = (lookupAux cur st l x).1) ∧
      (∀ s, (lookupAux cur st l x).2.1 = some s → s ≤ x ∧
        ∀ y, s - 259200 ≤ y → y < s → z.off y = z.off (s - 1)) ∧
      (∀ e, (lookupAux cur st l x).2.2 = some e → x < e ∧
        ∀ y, e ≤ y → y < e + 259200 → z.off y = z.off e) ∧
      (∀ s e, (lookupAux cur st l x).2.1 = some s → (lookupAux cur st l x).2.2 = some e →
        s + 259200 ≤ e) := by
  intro l
  induction l with
  | nil =>
    intro cur st x _ _ h3 h4 _
    simp only [lookupAux]
    refine ⟨?_, ?_, ?_, ?_, ?_⟩
    · rw [h3 x (fun s0 hs0 => (h4 s0 hs0).1)]; rfl
    · intro y hy _
      rw [h3 y (fun s0 hs0 => hy s0 hs0)]; rfl
    · exact h4
    · intro e he; exact absurd he (by simp)
    · intro s e _ he; exact absurd he (by simp)
  | cons p rest ih =>
    obtain ⟨tt, o⟩ := p
    intro cur st x hok hgap h3 h4 h5
    have hokr : offsOK rest = true := by
      simp only [offsOK, Bool.and_eq_true, decide_eq_true_eq, beq_iff_eq] at hok
      exact hok.2
    have hgapr : gapsOK rest = true := by
      cases rest with
      | nil => rfl
      | cons q r =>
        obtain ⟨t2, o2⟩ := q
        simp only [gapsOK, Bool.and_eq_true] at hgap
        exact hgap.2
    have hheadr : headGap tt rest := by
      cases rest with
      | nil => trivial
      | cons q r =>
        obtain ⟨t2, o2⟩ := q
        simp only [gapsOK, Bool.and_eq_true, decide_eq_true_eq] at hgap
        exact hgap.1
    have hstgap : ∀ s0, st = some s0 → s0 + 259200 ≤ tt := by
      intro s0 hs0
      have := h5 s0 hs0
      simp only [headGap] at this
      exact this
    have hstle : ∀ s0, st = some s0 → s0 ≤ tt := by
      intro s0 hs0
      have := hstgap s0 hs0
      omega
    simp only [lookupAux]
    by_cases hx : x < tt
    · rw [if_pos hx]
      have hoffth : ∀ y, tt ≤ y → y < tt + 259200 → z.off y = o := by
        intro y hy1 hy2
        rw [h3 y (fun s0 hs0 => by have := hstle s0 hs0; omega)]
        simp only [offAux]
        rw [if_neg (by omega)]
        apply offAux_lt_head
        intro t2 o2 r hr
        rw [hr] at hheadr
        simp only [headGap] at hheadr
        omega
      refine ⟨?_, ?_, ?_, ?_, ?_⟩
      · rw [h3 x (fun s0 hs0 => (h4 s0 hs0).1)]
        simp only [offAux]
        rw [if_pos hx]
      · intro y hy hye
        have hyt : y < tt := hye tt rfl
        rw [h3 y (fun s0 hs0 => hy s0 hs0)]
        simp only [offAux]
        rw [if_pos hyt]
      · exact h4
      · intro e he
        injection he with he
        subst he
        refine ⟨hx, ?_⟩
        intro y hy1 hy2
        rw [hoffth y hy1 hy2, hoffth tt (le_refl tt) (by omega)]
      · intro s e hs he
        injection he with he
        subst he
        have := h5 s hs
        simp only [headGap] at this
        exact this
    · rw [if_neg hx]
      apply ih o (some tt) x hokr hgapr
      · intro y hy
        have hty : tt ≤ y := hy tt rfl
        rw [h3 y (fun s0 hs0 => by have := hstle s0 hs0; omega)]
        simp only [offAux]
        rw [if_neg (by omega)]
      · intro s0 hs0
        injection hs0 with hs0
        subst hs0
        refine ⟨by omega, ?_⟩
        intro y hy1 hy2
        have e1 : z.off y = cur := by
          rw [h3 y (fun s1 hs1 => by have := hstgap s1 hs1; omega)]
          simp only [offAux]
          rw [if_pos (by omega)]
        have e2 : z.off (tt - 1) = cur := by
          rw [h3 (tt - 1) (fun s1 hs1 => by have := hstgap s1 hs1; omega)]
          simp only [offAux]
          rw [if_pos (by omega)]
        rw [e1, e2]
      · intro s0 hs0
        injection hs0 with hs0
        subst hs0
        exact hheadr

theorem wf_unpack (z : Tz) (h : z.WF = true) :
    z.base % 60 = 0 ∧ -86400 ≤ z.base ∧ z.base ≤ 86400 ∧
      offsOK z.trans = true ∧ gapsOK z.trans = true := by
  simp only [Tz.WF, Bool.and_eq_true, decide_eq_true_eq, beq_iff_eq] at h
  exact ⟨h.1.1.1.1, h.1.1.1.2, h.1.1.2, h.1.2, h.2⟩

theorem off_bound (z : Tz) (hwf : z.WF = true) (x : Int) :
    -86400 ≤ z.off x ∧ z.off x ≤ 86400 := by
  obtain ⟨_, hbl, hbh, hoks, _⟩ := wf_unpack z hwf
  exact offAux_bound z.trans z.base x hoks hbl hbh

theorem off_align (z : Tz) (hwf : z.WF = true) (a b : Int)
    (ha : a % 60 = 0) (h1 : a ≤ b) (h2 : b < a + 60) : z.off a = z.off b := by
  obtain ⟨_, _, _, hoks, _⟩ := wf_unpack z hwf
  exact offAux_align z.trans z.base a b hoks ha h1 h2

theorem lookup_props (z : Tz) (hwf : z.WF = true) (x : Int) :
    z.off x = (z.lookup x).1 ∧
    (∀ y, (∀ s, (z.lookup x).2.1 = some s → s ≤ y) →
      (∀ e, (z.lookup x).2.2 = some e → y < e) → z.off y = (z.lookup x).1) ∧
    (∀ s, (z.lookup x).2.1 = some s → s ≤ x ∧
      ∀ y, s - 259200 ≤ y → y < s → z.off y = z.off (s - 1)) ∧
    (∀ e, (z.lookup x).2.2 = some e → x < e ∧
      ∀ y, e ≤ y → y < e + 259200 → z.off y = z.off e) ∧
    (∀ s e, (z.lookup x).2.1 = some s → (z.lookup x).2.2 = some e → s + 259200 ≤ e) := by
  obtain ⟨_, _, _, hoks, hgaps⟩ := wf_unpack z hwf
  exact lookup_master z z.trans z.base none x hoks hgaps (fun y _ => rfl)
    (fun s0 hs0 => by simp at hs0) (fun s0 hs0 => by simp at hs0)

theorem dateAdjust_eq (z : Tz) (secs o1 : Int) (st en : Option Int)
    (hlk : z.lookup secs = (o1, st, en)) :
    dateAdjust z secs =
      if o1 = 0 then secs
      else
        if startBelow (secs - o1) st then secs - z.off (st.getD 0 - 1)
        else if endAbove (secs - o1) en then secs - z.off (en.getD 0)
        else secs - o1 := by
  unfold dateAdjust
  rw [hlk]

/-- Correctness of `time.Date`'s offset selection: whenever the requested
local civil time `secs` is realized by some instant (there is a consistent
offset `o0`), the instant produced by `dateAdjust` has local time exactly
`secs`. -/
theorem dateAdjust_spec (z : Tz) (hwf : z.WF = true) (secs o0 : Int)
    (hc : z.off (secs - o0) = o0) :
    dateAdjust z secs + z.off (dateAdjust z secs) = secs := by
  obtain ⟨⟨o1, st, en⟩, hlk⟩ : ∃ p, z.lookup secs = p := ⟨_, rfl⟩
  obtain ⟨hP1, hP2, hP3, hP4, hP5⟩ := lookup_props z hwf secs
  rw [hlk] at hP1 hP2 hP3 hP4 hP5
  simp only [] at hP1 hP2 hP3 hP4 hP5
  have hadj := dateAdjust_eq z secs o1 st en hlk
  have ho1b : -86400 ≤ o1 ∧ o1 ≤ 86400 := by rw [← hP1]; exact off_bound z hwf secs
  have ho0b : -86400 ≤ o0 ∧ o0 ≤ 86400 := by rw [← hc]; exact off_bound z hwf (secs - o0)
  by_cases h0 : o1 = 0
  · rw [hadj, if_pos h0, hP1, h0]
    omega
  · rw [hadj, if_neg h0]
    cases st with
    | some s =>
      obtain ⟨hsle, hprev⟩ := hP3 s rfl
      by_cases hb : secs - o1 < s
      · simp only [startBelow, endAbove, decide_eq_true hb, Bool.false_eq_true, ↓reduceIte, Option.getD]
        have hub : secs < s + 86400 := by omega
        have hchosen : z.off (secs - z.off (s - 1)) = z.off (s - 1) := by
          by_cases hy : secs - o0 < s
          · have hr : z.off (secs - o0) = z.off (s - 1) := hprev _ (by omega) hy
            rw [hc] at hr
            rw [← hr]
            exact hc
          · have hin : z.off (secs - o0) = o1 := by
              apply hP2
              · intro s' hs'
                injection hs' with hs'
                omega
              · intro e he
                have := hP5 s e rfl he
                omega
            rw [hc] at hin
            omega
        rw [hchosen]
        omega
      · simp only [startBelow, endAbove, decide_eq_false hb, Bool.false_eq_true, ↓reduceIte]
        cases en with
        | some e =>
          obtain ⟨hslt, hnext⟩ := hP4 e rfl
          have hgapse := hP5 s e rfl rfl
          by_cases ha : e ≤ secs - o1
          · simp only [startBelow, endAbove, decide_eq_true ha, Bool.false_eq_true, ↓reduceIte, Option.getD]
            have hchosen : z.off (secs - z.off e) = z.off e := by
              by_cases hy : e ≤ secs - o0
              · have hr : z.off (secs - o0) = z.off e := hnext _ hy (by omega)
                rw [hc] at hr
                rw [← hr]
                exact hc
              · have hin : z.off (secs - o0) = o1 := by
                  apply hP2
                  · intro s' hs'
                    injection hs' with hs'
                    omega
                  · intro e' he'
                    injection he' with he'
                    omega
                rw [hc] at hin
                omega
            rw [hchosen]
            omega
          · simp only [startBelow, endAbove, decide_eq_false ha, Bool.false_eq_true, ↓reduceIte]
            have hin : z.off (secs - o1) = o1 := by
              apply hP2
              · intro s' hs'
                injection hs' with hs'
                omega
              · intro e' he'
                injection he' with he'
                omega
            rw [hin]
            omega
        | none =>
          simp only [startBelow, endAbove, Bool.false_eq_true, ↓reduceIte]
          have hin : z.off (secs - o1) = o1 := by
            apply hP2
            · intro s' hs'
              injection hs' with hs'
              omega
            · intro e' he'
              exact absurd he' (by simp)
          rw [hin]
          omega
    | none =>
      cases en with
      | some e =>
        obtain ⟨hslt, hnext⟩ := hP4 e rfl
        by_cases ha : e ≤ secs - o1
        · simp only [startBelow, endAbove, decide_eq_true ha, Bool.false_eq_true, ↓reduceIte, Option.getD]
          have hchosen : z.off (secs - z.off e) = z.off e := by
            by_cases hy : e ≤ secs - o0
            · have hr : z.off (secs - o0) = z.off e := hnext _ hy (by omega)
              rw [hc] at hr
              rw [← hr]
              exact hc
            · have hin : z.off (secs - o0) = o1 := by
                apply hP2
                · intro s' hs'
                  exact absurd hs' (by simp)
                · intro e' he'
                  injection he' with he'
                  omega
              rw [hc] at hin
              omega
          rw [hchosen]
          omega
        · simp only [startBelow, endAbove, decide_eq_false ha, Bool.false_eq_true, ↓reduceIte]
          have hin : z.off (secs - o1) = o1 := by
            apply hP2
            · intro s' hs'
              exact absurd hs' (by simp)
            · intro e' he'
              injection he' with he'
              omega
          rw [hin]
          omega
      | none =>
        simp only [startBelow, endAbove, Bool.false_eq_true, ↓reduceIte]
        have hin : z.off (secs - o1) = o1 := by
          apply hP2
          · intro s' hs'
            exact absurd hs' (by simp)
          · intro e' he'
            exact absurd he' (by simp)
        rw [hin]
        omega

theorem offAux_mod60 : ∀ (l : List (Int × Int)) (cur x : Int), offsOK l = true →
    cur % 60 = 0 → offAux cur l x % 60 = 0 := by
  intro l
  induction l with
  | nil => intro cur x _ h1; exact h1
  | cons p rest ih =>
    obtain ⟨tt, o⟩ := p
    intro cur x hok h1
    simp only [offsOK, Bool.and_eq_true, decide_eq_true_eq, beq_iff_eq] at hok
    obtain ⟨⟨⟨⟨h60t, h60o⟩, hlo⟩, hhi⟩, hrest⟩ := hok
    simp only [offAux]
    split
    · exact h1
    · exact ih o x hrest h60o

theorem off_mod60 (z : Tz) (hwf : z.WF = true) (x : Int) : z.off x % 60 = 0 := by
  obtain ⟨hb60, _, _, hoks, _⟩ := wf_unpack z hwf
  exact offAux_mod60 z.trans z.base x hoks hb60

/-- The local-seconds value `time.Date` is asked for, for a `DateTime` with
in-range month, hour and minute fields (normalization is then the
identity). -/
theorem dateTimeToUnix_eq (z : Tz) (m : DateTime)
    (hm1 : 1 ≤ m.Month) (hm2 : m.Month ≤ 12)
    (hh1 : 0 ≤ m.Hour) (hh2 : m.Hour < 24)
    (hmi1 : 0 ≤ m.Minute) (hmi2 : m.Minute < 60) :
    dateTimeToUnix z m = dateAdjust z
      (86400 * (dateToDays m.Year m.Month m.Day - unixEpochDays) +
        3600 * m.Hour + 60 * m.Minute) := by
  unfold dateTimeToUnix
  simp only [normPair]
  have e1 : m.Year + (m.Month - 1) / 12 = m.Year := by omega
  have e2 : (m.Month - 1) % 12 + 1 = m.Month := by omega
  have e3 : m.Hour + m.Minute / 60 = m.Hour := by omega
  rw [e1, e2, e3]
  have e4 : m.Day + m.Hour / 24 = m.Day := by omega
  have e5 : m.Hour % 24 = m.Hour := by omega
  have e6 : m.Minute % 60 = m.Minute := by omega
  rw [e4, e5, e6]

/-- Encode-decode round trip at an arbitrary instant `t`: decoding `t`,
re-encoding the result and decoding again reproduces the decoding of `t`.
This is the content of the codec round-trip guarantee, phrased on the image
of the decoder. -/
theorem unix_roundtrip (z : Tz) (hwf : z.WF = true) (t : Int) :
    unixToDateTime z (dateTimeToUnix z (unixToDateTime z t)) = unixToDateTime z t := by
  have hmod : z.off t % 60 = 0 := off_mod60 z hwf t
  have hremb : 0 ≤ (t + z.off t) % 86400 ∧ (t + z.off t) % 86400 < 86400 := by omega
  obtain ⟨hback, hmo1, hmo12⟩ := daysToDate_correct ((t + z.off t) / 86400 + unixEpochDays)
  have hfieldY : (unixToDateTime z t).Year =
      (daysToDate ((t + z.off t) / 86400 + unixEpochDays)).1 := rfl
  have hfieldM : (unixToDateTime z t).Month =
      (daysToDate ((t + z.off t) / 86400 + unixEpochDays)).2.1 := rfl
  have hfieldD : (unixToDateTime z t).Day =
      (daysToDate ((t + z.off t) / 86400 + unixEpochDays)).2.2 := rfl
  have hfieldH : (unixToDateTime z t).Hour = ((t + z.off t) % 86400) / 3600 := rfl
  have hfieldMi : (unixToDateTime z t).Minute = (((t + z.off t) % 86400) % 3600) / 60 := rfl
  have henc := dateTimeToUnix_eq z (unixToDateTime z t)
    (by rw [hfieldM]; exact hmo1) (by rw [hfieldM]; exact hmo12)
    (by rw [hfieldH]; omega) (by rw [hfieldH]; omega)
    (by rw [hfieldMi]; omega) (by rw [hfieldMi]; omega)
  rw [hfieldY, hfieldM, hfieldD, hfieldH, hfieldMi, hback] at henc
  have hSeq : 86400 * ((t + z.off t) / 86400 + unixEpochDays - unixEpochDays) +
      3600 * ((t + z.off t) % 86400 / 3600) + 60 * ((t + z.off t) % 86400 % 3600 / 60) =
      (t + z.off t) - (t + z.off t) % 60 := by omega
  rw [hSeq] at henc
  have hcons : z.off (((t + z.off t) - (t + z.off t) % 60) - z.off t) = z.off t := by
    have harg : ((t + z.off t) - (t + z.off t) % 60) - z.off t = t - t % 60 := by omega
    rw [harg]
    exact off_align z hwf (t - t % 60) t (by omega) (by omega) (by omega)
  have hadj := dateAdjust_spec z hwf ((t + z.off t) - (t + z.off t) % 60) (z.off t) hcons
  rw [henc]
  generalize hu : dateAdjust z ((t + z.off t) - (t + z.off t) % 60) = u at hadj
  unfold unixToDateTime
  simp only []
  rw [hadj]
  have h1 : ((t + z.off t) - (t + z.off t) % 60) / 86400 = (t + z.off t) / 86400 := by omega
  have h2 : (((t + z.off t) - (t + z.off t) % 60) % 86400) / 3600 =
      ((t + z.off t) % 86400) / 3600 := by omega
  have h3 : ((((t + z.off t) - (t + z.off t) % 60) % 86400) % 3600) / 60 =
      (((t + z.off t) % 86400) % 3600) / 60 := by omega
  rw [h1, h2, h3]

/-! ## Canonical serialization (`structures.go`)

`EventData.ToString` models the `fmt.Sprintf` format string of the Go
method: `%s` interpolates strings verbatim, `%d` renders integers in
decimal, `%t` renders booleans as `true`/`false`, and `%v` on the embedded
`DateTime` struct renders Go's default struct form
`\x7b\x7bType\x7d Year Month Day Hour Minute\x7d`.  The decimal renderer is
given by a fuel-based digit recursion so that it evaluates inside the
kernel. -/

def natChars : Nat → Nat → List Char
  | 0, _ => []
  | fuel + 1, n =>
    if n < 10 then [Nat.digitChar n]
    else natChars fuel (n / 10) ++ [Nat.digitChar (n % 10)]

def natStr (n : Nat) : String := String.mk (natChars (n + 1) n)

/-- Go `%d` on a (signed) integer. -/
def goShowInt (i : Int) : String :=
  if i < 0 then "-" ++ natStr (-i).toNat else natStr i.toNat

/-- Go `%t` on a boolean. -/
def goShowBool (b : Bool) : String := if b then "true" else "false"

/-- Go `%v` on the `DateTime` struct (with its embedded `Common`). -/
def showDateTime (d : DateTime) : String :=
  "\x7b\x7b" ++ d.type ++ "\x7d " ++ goShowInt d.Year ++ " " ++ goShowInt d.Month ++ " " ++
    goShowInt d.Day ++ " " ++ goShowInt d.Hour ++ " " ++ goShowInt d.Minute ++ "\x7d"

/-- The wire `EventData` structure (`structures.go`). -/
structure EventData where
  type : String
  ID : Int
  Version : String
  UUID : String
  Title : String
  Start : DateTime
  End : DateTime
  Address : String
  Info : String
  Reminder : Int
  Done : Bool
  Important : Bool
  Urgent : Bool
  Source : String
deriving DecidableEq

/-- `EventData.ToString` (`structures.go`): the canonical serialization the
content hash is computed over.  Note it interpolates `Version, UUID, Title,
Start, End, Address, Info, Reminder, Done, Important, Urgent` — neither the
numeric `ID`, nor the `__type__` tags of the event itself, nor `Source`. -/
def EventData.ToString (e : EventData) : String :=
  "Version: " ++ e.Version ++ ", UUID: " ++ e.UUID ++ ", Title: " ++ e.Title ++
    ", Start: " ++ showDateTime e.Start ++ ", End: " ++ showDateTime e.End ++
    ", Address: " ++ e.Address ++ ", Info: " ++ e.Info ++
    ", Reminder: " ++ goShowInt e.Reminder ++ ", Done: " ++ goShowBool e.Done ++
    ", Important: " ++ goShowBool e.Important ++ ", Urgent: " ++ goShowBool e.Urgent

/-- `EventData.Sha256` (`structures.go`): SHA-256 of `ToString`.  The digest
is modelled by the serialized string itself — an injective idealization of
the hash, so digest equality is serialization equality. -/
def EventData.Sha256 (e : EventData) : String := e.ToString

/-! ### Injectivity of the rendering, one field at a time -/

def charsVal (l : List Char) : Nat := l.foldl (fun acc c => acc * 10 + (c.toNat - 48)) 0

theorem charsVal_append_digit (xs : List Char) (c : Char) :
    charsVal (xs ++ [c]) = charsVal xs * 10 + (c.toNat - 48) := by
  unfold charsVal
  rw [List.foldl_append]
  rfl

theorem digitChar_val : ∀ m : Nat, m < 10 → (Nat.digitChar m).toNat - 48 = m := by decide

theorem digitChar_shape : ∀ m : Nat, m < 10 →
    Nat.digitChar m ≠ ' ' ∧ Nat.digitChar m ≠ '-' := by decide

theorem natChars_val : ∀ (fuel n : Nat), n < fuel → charsVal (natChars fuel n) = n := by
  intro fuel
  induction fuel with
  | zero => intro n h; omega
  | succ f ih =>
    intro n h
    unfold natChars
    split
    · rename_i h10
      show charsVal [Nat.digitChar n] = n
      unfold charsVal
      simp only [List.foldl_cons, List.foldl_nil]
      have := digitChar_val n h10
      omega
    · rename_i h10
      rw [charsVal_append_digit, ih (n / 10) (by omega), digitChar_val (n % 10) (by omega)]
      omega

theorem natChars_shape : ∀ (fuel n : Nat), ∀ c ∈ natChars fuel n, c ≠ ' ' ∧ c ≠ '-' := by
  intro fuel
  induction fuel with
  | zero => intro n c hc; simp [natChars] at hc
  | succ f ih =>
    intro n c hc
    unfold natChars at hc
    split at hc
    · rename_i h10
      simp only [List.mem_singleton] at hc
      subst hc
      exact digitChar_shape n h10
    · rename_i h10
      rw [List.mem_append] at hc
      rcases hc with hc | hc
      · exact ih (n / 10) c hc
      · simp only [List.mem_singleton] at hc
        subst hc
        exact digitChar_shape (n % 10) (by omega)

theorem natStr_inj {m n : Nat} (h : natStr m = natStr n) : m = n := by
  unfold natStr at h
  injection h with h
  have hm := natChars_val (m + 1) m (by omega)
  have hn := natChars_val (n + 1) n (by omega)
  rw [h] at hm
  omega

theorem natStr_shape {n : Nat} : ∀ c ∈ (natStr n).data, c ≠ ' ' ∧ c ≠ '-' :=
  fun c hc => natChars_shape (n + 1) n c hc

theorem natStr_ne_nil (n : Nat) : (natStr n).data ≠ [] := by
  unfold natStr natChars
  split
  · simp
  · simp

theorem goShowInt_shape (i : Int) : ∀ c ∈ (goShowInt i).data, c ≠ ' ' := by
  intro c hc
  unfold goShowInt at hc
  split at hc
  · rw [String.data_append, List.mem_append] at hc
    rcases hc with hc | hc
    · simp only [show ("-" : String).data = ['-'] from rfl, List.mem_singleton] at hc
      subst hc
      decide
    · exact (natStr_shape c hc).1
  · exact (natStr_shape c hc).1

theorem goShowInt_inj {i j : Int} (h : goShowInt i = goShowInt j) : i = j := by
  unfold goShowInt at h
  split at h <;> split at h
  · rename_i hi hj
    have h' : natStr (-i).toNat = natStr (-j).toNat := by
      have hd := congrArg String.data h
      rw [String.data_append, String.data_append] at hd
      have := List.append_cancel_left hd
      exact congrArg String.mk this
    have := natStr_inj h'
    omega
  · rename_i hi hj
    exfalso
    have hd := congrArg String.data h
    rw [String.data_append] at hd
    rcases hnj : (natStr j.toNat).data with _ | ⟨c, cs⟩
    · exact natStr_ne_nil _ hnj
    · rw [hnj] at hd
      simp only [show ("-" : String).data = ['-'] from rfl, List.cons_append,
        List.nil_append, List.cons.injEq] at hd
      have hcne : c ≠ '-' := (natStr_shape c (by rw [hnj]; exact List.mem_cons_self c cs)).2
      exact hcne hd.1.symm
  · rename_i hi hj
    exfalso
    have hd := congrArg String.data h
    rw [String.data_append] at hd
    rcases hni : (natStr i.toNat).data with _ | ⟨c, cs⟩
    · exact natStr_ne_nil _ hni
    · rw [hni] at hd
      simp only [show ("-" : String).data = ['-'] from rfl, List.cons_append,
        List.nil_append, List.cons.injEq] at hd
      have hcne : c ≠ '-' := (natStr_shape c (by rw [hni]; exact List.mem_cons_self c cs)).2
      exact hcne hd.1
  · rename_i hi hj
    have := natStr_inj (congrArg String.mk (congrArg String.data h))
    omega

theorem goShowBool_inj {a b : Bool} (h : goShowBool a = goShowBool b) : a = b := by
  cases a <;> cases b <;> first | rfl | (exfalso; revert h; decide)

theorem sep_cancel : ∀ (x y r1 r2 : List Char), (∀ c ∈ x, c ≠ ' ') → (∀ c ∈ y, c ≠ ' ') →
    x ++ ' ' :: r1 = y ++ ' ' :: r2 → x = y ∧ r1 = r2 := by
  intro x
  induction x with
  | nil =>
    intro y r1 r2 _ hy h
    cases y with
    | nil =>
      simp only [List.nil_append] at h
      injection h with _ h2
      exact ⟨rfl, h2⟩
    | cons b ys =>
      simp only [List.nil_append, List.cons_append] at h
      injection h with h1 _
      exact absurd h1.symm (hy b (List.mem_cons_self b ys))
  | cons a xs ih =>
    intro y r1 r2 hx hy h
    cases y with
    | nil =>
      simp only [List.nil_append, List.cons_append] at h
      injection h with h1 _
      exact absurd h1 (hx a (List.mem_cons_self a xs))
    | cons b ys =>
      simp only [List.cons_append] at h
      injection h with h1 h2
      obtain ⟨hxy, hr⟩ := ih ys r1 r2 (fun c hc => hx c (List.mem_cons_of_mem a hc))
        (fun c hc => hy c (List.mem_cons_of_mem b hc)) h2
      exact ⟨by rw [h1, hxy], hr⟩

theorem goShowInt_data_inj {i j : Int} (h : (goShowInt i).data = (goShowInt j).data) : i = j :=
  goShowInt_inj (congrArg String.mk h)

/-- Go's `%v` rendering of `DateTime` is injective once the embedded type
tags agree: the five numeric fields are recovered from the space-separated
segments. -/
theorem showDateTime_inj {d1 d2 : DateTime} (ht : d1.type = d2.type)
    (h : showDateTime d1 = showDateTime d2) : d1 = d2 := by
  have hd := congrArg String.data h
  simp only [showDateTime, String.data_append, List.append_assoc] at hd
  rw [ht] at hd
  have h1 := List.append_cancel_left hd
  have h2 := List.append_cancel_left h1
  have h3 := List.append_cancel_left h2
  simp only [show (" " : String).data = [' '] from rfl, List.singleton_append] at h3
  obtain ⟨hY, h4⟩ := sep_cancel _ _ _ _ (goShowInt_shape d1.Year) (goShowInt_shape d2.Year) h3
  obtain ⟨hM, h5⟩ := sep_cancel _ _ _ _ (goShowInt_shape d1.Month) (goShowInt_shape d2.Month) h4
  obtain ⟨hD, h6⟩ := sep_cancel _ _ _ _ (goShowInt_shape d1.Day) (goShowInt_shape d2.Day) h5
  obtain ⟨hH, h7⟩ := sep_cancel _ _ _ _ (goShowInt_shape d1.Hour) (goShowInt_shape d2.Hour) h6
  have hMi := List.append_cancel_right h7
  cases d1
  cases d2
  simp only [] at ht hY hM hD hH hMi ⊢
  rw [ht, goShowInt_data_inj hY, goShowInt_data_inj hM, goShowInt_data_inj hD,
    goShowInt_data_inj hH, goShowInt_data_inj hMi]

theorem ToString_version_inj (e1 e2 : EventData)
    (hUUID : e1.UUID = e2.UUID) (hTitle : e1.Title = e2.Title) (hStart : e1.Start = e2.Start) (hEnd : e1.End = e2.End) (hAddress : e1.Address = e2.Address) (hInfo : e1.Info = e2.Info) (hReminder : e1.Reminder = e2.Reminder) (hDone : e1.Done = e2.Done) (hImportant : e1.Important = e2.Important) (hUrgent : e1.Urgent = e2.Urgent)
    (h : e1.ToString = e2.ToString) : e1.Version = e2.Version := by
  have hd := congrArg String.data h
  simp only [EventData.ToString, String.data_append, List.append_assoc] at hd
  rw [hUUID, hTitle, hStart, hEnd, hAddress, hInfo, hReminder, hDone, hImportant, hUrgent] at hd
  have c1 := List.append_cancel_left hd
  have hcomp := List.append_cancel_right c1
  exact congrArg String.mk hcomp

theorem ToString_uuid_inj (e1 e2 : EventData)
    (hVersion : e1.Version = e2.Version) (hTitle : e1.Title = e2.Title) (hStart : e1.Start = e2.Start) (hEnd : e1.End = e2.End) (hAddress : e1.Address = e2.Address) (hInfo : e1.Info = e2.Info) (hReminder : e1.Reminder = e2.Reminder) (hDone : e1.Done = e2.Done) (hImportant : e1.Important = e2.Important) (hUrgent : e1.Urgent = e2.Urgent)
    (h : e1.ToString = e2.ToString) : e1.UUID = e2.UUID := by
  have hd := congrArg String.data h
  simp only [EventData.ToString, String.data_append, List.append_assoc] at hd
  rw [hVersion, hTitle, hStart, hEnd, hAddress, hInfo, hReminder, hDone, hImportant, hUrgent] at hd
  have c1 := List.append_cancel_left hd
  have c2 := List.append_cancel_left c1
  have c3 := List.append_cancel_left c2
  have hcomp := List.append_cancel_right c3
  exact congrArg String.mk hcomp

theorem ToString_title_inj (e1 e2 : EventData)
    (hVersion : e1.Version = e2.Version) (hUUID : e1.UUID = e2.UUID) (hStart : e1.Start = e2.Start) (hEnd : e1.End = e2.End) (hAddress : e1.Address = e2.Address) (hInfo : e1.Info = e2.Info) (hReminder : e1.Reminder = e2.Reminder) (hDone : e1.Done = e2.Done) (hImportant : e1.Important = e2.Important) (hUrgent : e1.Urgent = e2.Urgent)
    (h : e1.ToString = e2.ToString) : e1.Title = e2.Title := by
  have hd := congrArg String.data h
  simp only [EventData.ToString, String.data_append, List.append_assoc] at hd
  rw [hVersion, hUUID, hStart, hEnd, hAddress, hInfo, hReminder, hDone, hImportant, hUrgent] at hd
  have c1 := List.append_cancel_left hd
  have c2 := List.append_cancel_left c1
  have c3 := List.append_cancel_left c2
  have c4 := List.append_cancel_left c3
  have c5 := List.append_cancel_left c4
  have hcomp := List.append_cancel_right c5
  exact congrArg String.mk hcomp

theorem ToString_start_inj (e1 e2 : EventData)
    (hVersion : e1.Version = e2.Version) (hUUID : e1.UUID = e2.UUID) (hTitle : e1.Title = e2.Title) (hEnd : e1.End = e2.End) (hAddress : e1.Address = e2.Address) (hInfo : e1.Info = e2.Info) (hReminder : e1.Reminder = e2.Reminder) (hDone : e1.Done = e2.Done) (hImportant : e1.Important = e2.Important) (hUrgent : e1.Urgent = e2.Urgent)
    (htype : e1.Start.type = e2.Start.type) (h : e1.ToString = e2.ToString) : e1.Start = e2.Start := by
  have hd := congrArg String.data h
  simp only [EventData.ToString, String.data_append, List.append_assoc] at hd
  rw [hVersion, hUUID, hTitle, hEnd, hAddress, hInfo, hReminder, hDone, hImportant, hUrgent] at hd
  have c1 := List.append_cancel_left hd
  have c2 := List.append_cancel_left c1
  have c3 := List.append_cancel_left c2
  have c4 := List.append_cancel_left c3
  have c5 := List.append_cancel_left c4
  have c6 := List.append_cancel_left c5
  have c7 := List.append_cancel_left c6
  have hcomp := List.append_cancel_right c7
  exact showDateTime_inj htype (congrArg String.mk hcomp)

theorem ToString_end_inj (e1 e2 : EventData)
    (hVersion : e1.Version = e2.Version) (hUUID : e1.UUID = e2.UUID) (hTitle : e1.Title = e2.Title) (hStart : e1.Start = e2.Start) (hAddress : e1.Address = e2.Address) (hInfo : e1.Info = e2.Info) (hReminder : e1.Reminder = e2.Reminder) (hDone : e1.Done = e2.Done) (hImportant : e1.Important = e2.Important) (hUrgent : e1.Urgent = e2.Urgent)
    (htype : e1.End.type = e2.End.type) (h : e1.ToString = e2.ToString) : e1.End = e2.End := by
  have hd := congrArg String.data h
  simp only [EventData.ToString, String.data_append, List.append_assoc] at hd
  rw [hVersion, hUUID, hTitle, hStart, hAddress, hInfo, hReminder, hDone, hImportant, hUrgent] at hd
  have c1 := List.append_cancel_left hd
  have c2 := List.append_cancel_left c1
  have c3 := List.append_cancel_left c2
  have c4 := List.append_cancel_left c3
  have c5 := List.append_cancel_left c4
  have c6 := List.append_cancel_left c5
  have c7 := List.append_cancel_left c6
  have c8 := List.append_cancel_left c7
  have c9 := List.append_cancel_left c8
  have hcomp := List.append_cancel_right c9
  exact showDateTime_inj htype (congrArg String.mk hcomp)

theorem ToString_address_inj (e1 e2 : EventData)
    (hVersion : e1.Version = e2.Version) (hUUID : e1.UUID = e2.UUID) (hTitle : e1.Title = e2.Title) (hStart : e1.Start = e2.Start) (hEnd : e1.End = e2.End) (hInfo : e1.Info = e2.Info) (hReminder : e1.Reminder = e2.Reminder) (hDone : e1.Done = e2.Done) (hImportant : e1.Important = e2.Important) (hUrgent : e1.Urgent = e2.Urgent)
    (h : e1.ToString = e2.ToString) : e1.Address = e2.Address := by
  have hd := congrArg String.data h
  simp only [EventData.ToString, String.data_append, List.append_assoc] at hd
  rw [hVersion, hUUID, hTitle, hStart, hEnd, hInfo, hReminder, hDone, hImportant, hUrgent] at hd
  have c1 := List.append_cancel_left hd
  have c2 := List.append_cancel_left c1
  have c3 := List.append_cancel_left c2
  have c4 := List.append_cancel_left c3
  have c5 := List.append_cancel_left c4
  have c6 := List.append_cancel_left c5
  have c7 := List.append_cancel_left c6
  have c8 := List.append_cancel_left c7
  have c9 := List.append_cancel_left c8
  have c10 := List.append_cancel_left c9
  have c11 := List.append_cancel_left c10
  have hcomp := List.append_cancel_right c11
  exact congrArg String.mk hcomp

theorem ToString_info_inj (e1 e2 : EventData)
    (hVersion : e1.Version = e2.Version) (hUUID : e1.UUID = e2.UUID) (hTitle : e1.Title = e2.Title) (hStart : e1.Start = e2.Start) (hEnd : e1.End = e2.End) (hAddress : e1.Address = e2.Address) (hReminder : e1.Reminder = e2.Reminder) (hDone : e1.Done = e2.Done) (hImportant : e1.Important = e2.Important) (hUrgent : e1.Urgent = e2.Urgent)
    (h : e1.ToString = e2.ToString) : e1.Info = e2.Info := by
  have hd := congrArg String.data h
  simp only [EventData.ToString, String.data_append, List.append_assoc] at hd
  rw [hVersion, hUUID, hTitle, hStart, hEnd, hAddress, hReminder, hDone, hImportant, hUrgent] at hd
  have c1 := List.append_cancel_left hd
  have c2 := List.append_cancel_left c1
  have c3 := List.append_cancel_left c2
  have c4 := List.append_cancel_left c3
  have c5 := List.append_cancel_left c4
  have c6 := List.append_cancel_left c5
  have c7 := List.append_cancel_left c6
  have c8 := List.append_cancel_left c7
  have c9 := List.append_cancel_left c8
  have c10 := List.append_cancel_left c9
  have c11 := List.append_cancel_left c10
  have c12 := List.append_cancel_left c11
  have c13 := List.append_cancel_left c12
  have hcomp := List.append_cancel_right c13
  exact congrArg String.mk hcomp

theorem ToString_reminder_inj (e1 e2 : EventData)
    (hVersion : e1.Version = e2.Version) (hUUID : e1.UUID = e2.UUID) (hTitle : e1.Title = e2.Title) (hStart : e1.Start = e2.Start) (hEnd : e1.End = e2.End) (hAddress : e1.Address = e2.Address) (hInfo : e1.Info = e2.Info) (hDone : e1.Done = e2.Done) (hImportant : e1.Important = e2.Important) (hUrgent : e1.Urgent = e2.Urgent)
    (h : e1.ToString = e2.ToString) : e1.Reminder = e2.Reminder := by
  have hd := congrArg String.data h
  simp only [EventData.ToString, String.data_append, List.append_assoc] at hd
  rw [hVersion, hUUID, hTitle, hStart, hEnd, hAddress, hInfo, hDone, hImportant, hUrgent] at hd
  have c1 := List.append_cancel_left hd
  have c2 := List.append_cancel_left c1
  have c3 := List.append_cancel_left c2
  have c4 := List.append_cancel_left c3
  have c5 := List.append_cancel_left c4
  have c6 := List.append_cancel_left c5
  have c7 := List.append_cancel_left c6
  have c8 := List.append_cancel_left c7
  have c9 := List.append_cancel_left c8
  have c10 := List.append_cancel_left c9
  have c11 := List.append_cancel_left c10
  have c12 := List.append_cancel_left c11
  have c13 := List.append_cancel_left c12
  have c14 := List.append_cancel_left c13
  have c15 := List.append_cancel_left c14
  have hcomp := List.append_cancel_right c15
  exact goShowInt_data_inj hcomp

theorem ToString_done_inj (e1 e2 : EventData)
    (hVersion : e1.Version = e2.Version) (hUUID : e1.UUID = e2.UUID) (hTitle : e1.Title = e2.Title) (hStart : e1.Start = e2.Start) (hEnd : e1.End = e2.End) (hAddress : e1.Address = e2.Address) (hInfo : e1.Info = e2.Info) (hReminder : e1.Reminder = e2.Reminder) (hImportant : e1.Important = e2.Important) (hUrgent : e1.Urgent = e2.Urgent)
    (h : e1.ToString = e2.ToString) : e1.Done = e2.Done := by
  have hd := congrArg String.data h
  simp only [EventData.ToString, String.data_append, List.append_assoc] at hd
  rw [hVersion, hUUID, hTitle, hStart, hEnd, hAddress, hInfo, hReminder, hImportant, hUrgent] at hd
  have c1 := List.append_cancel_left hd
  have c2 := List.append_cancel_left c1
  have c3 := List.append_cancel_left c2
  have c4 := List.append_cancel_left c3
  have c5 := List.append_cancel_left c4
  have c6 := List.append_cancel_left c5
  have c7 := List.append_cancel_left c6
  have c8 := List.append_cancel_left c7
  have c9 := List.append_cancel_left c8
  have c10 := List.append_cancel_left c9
  have c11 := List.append_cancel_left c10
  have c12 := List.append_cancel_left c11
  have c13 := List.append_cancel_left c12
  have c14 := List.append_cancel_left c13
  have c15 := List.append_cancel_left c14
  have c16 := List.append_cancel_left c15
  have c17 := List.append_cancel_left c16
  have hcomp := List.append_cancel_right c17
  exact goShowBool_inj (congrArg String.mk hcomp)

theorem ToString_important_inj (e1 e2 : EventData)
    (hVersion : e1.Version = e2.Version) (hUUID : e1.UUID = e2.UUID) (hTitle : e1.Title = e2.Title) (hStart : e1.Start = e2.Start) (hEnd : e1.End = e2.End) (hAddress : e1.Address = e2.Address) (hInfo : e1.Info = e2.Info) (hReminder : e1.Reminder = e2.Reminder) (hDone : e1.Done = e2.Done) (hUrgent : e1.Urgent = e2.Urgent)
    (h : e1.ToString = e2.ToString) : e1.Important = e2.Important := by
  have hd := congrArg String.data h
  simp only [EventData.ToString, String.data_append, List.append_assoc] at hd
  rw [hVersion, hUUID, hTitle, hStart, hEnd, hAddress, hInfo, hReminder, hDone, hUrgent] at hd
  have c1 := List.append_cancel_left hd
  have c2 := List.append_cancel_left c1
  have c3 := List.append_cancel_left c2
  have c4 := List.append_cancel_left c3
  have c5 := List.append_cancel_left c4
  have c6 := List.append_cancel_left c5
  have c7 := List.append_cancel_left c6
  have c8 := List.append_cancel_left c7
  have c9 := List.append_cancel_left c8
  have c10 := List.append_cancel_left c9
  have c11 := List.append_cancel_left c10
  have c12 := List.append_cancel_left c11
  have c13 := List.append_cancel_left c12
  have c14 := List.append_cancel_left c13
  have c15 := List.append_cancel_left c14
  have c16 := List.append_cancel_left c15
  have c17 := List.append_cancel_left c16
  have c18 := List.append_cancel_left c17
  have c19 := List.append_cancel_left c18
  have hcomp := List.append_cancel_right c19
  exact goShowBool_inj (congrArg String.mk hcomp)

theorem ToString_urgent_inj (e1 e2 : EventData)
    (hVersion : e1.Version = e2.Version) (hUUID : e1.UUID = e2.UUID) (hTitle : e1.Title = e2.Title) (hStart : e1.Start = e2.Start) (hEnd : e1.End = e2.End) (hAddress : e1.Address = e2.Address) (hInfo : e1.Info = e2.Info) (hReminder : e1.Reminder = e2.Reminder) (hDone : e1.Done = e2.Done) (hImportant : e1.Important = e2.Important)
    (h : e1.ToString = e2.ToString) : e1.Urgent = e2.Urgent := by
  have hd := congrArg String.data h
  simp only [EventData.ToString, String.data_append, List.append_assoc] at hd
  rw [hVersion, hUUID, hTitle, hStart, hEnd, hAddress, hInfo, hReminder, hDone, hImportant] at hd
  have c1 := List.append_cancel_left hd
  have c2 := List.append_cancel_left c1
  have c3 := List.append_cancel_left c2
  have c4 := List.append_cancel_left c3
  have c5 := List.append_cancel_left c4
  have c6 := List.append_cancel_left c5
  have c7 := List.append_cancel_left c6
  have c8 := List.append_cancel_left c7
  have c9 := List.append_cancel_left c8
  have c10 := List.append_cancel_left c9
  have c11 := List.append_cancel_left c10
  have c12 := List.append_cancel_left c11
  have c13 := List.append_cancel_left c12
  have c14 := List.append_cancel_left c13
  have c15 := List.append_cancel_left c14
  have c16 := List.append_cancel_left c15
  have c17 := List.append_cancel_left c16
  have c18 := List.append_cancel_left c17
  have c19 := List.append_cancel_left c18
  have c20 := List.append_cancel_left c19
  have c21 := List.append_cancel_left c20
  have hcomp := c21
  exact goShowBool_inj (congrArg String.mk hcomp)

/-! ## The event repository (`database.go`)

The SQLite store is modelled as explicit state: the `events`, `status` and
`users` tables are lists of rows in insertion (ROWID) order.  Each mutating
operation takes the repository state and returns the new state; the
`time.Now()` read inside `updateStatus` is passed in as a `now` parameter.
SQLite assigns `INTEGER PRIMARY KEY` row ids as one more than the largest
id in use (`freshId`). -/

structure EventRow where
  id : Int
  version : String
  uuid : String
  title : String
  start : Int
  end_ : Int
  address : String
  info : String
  reminder : Int
  done : Int
  important : Int
  urgent : Int
  source : String
deriving DecidableEq

structure StatusRow where
  timestamp : Int
  version : String
deriving DecidableEq

structure RepoState where
  events : List EventRow
  status : List StatusRow
  users : List (String × String)
deriving DecidableEq

/-- `Btoi` (`utils.go`). -/
def Btoi (b : Bool) : Int := if b then 1 else 0

/-- `convertRawEventRecordToEventData` (`utils.go`): scan a row back into
the wire structure, decoding the stored epoch seconds through the zone and
the stored `0/1` integers back into booleans. -/
def convertRawEventRecordToEventData (z : Tz) (r : EventRow) : EventData :=
  { type := EventDataStructName, ID := r.id, Version := r.version, UUID := r.uuid,
    Title := r.title, Start := unixToDateTime z r.start, End := unixToDateTime z r.end_,
    Address := r.address, Info := r.info, Reminder := r.reminder,
    Done := r.done == 1, Important := r.important == 1, Urgent := r.urgent == 1,
    Source := r.source }

def freshId (events : List EventRow) : Int :=
  (events.foldl (fun m r => max m r.id) 0) + 1

/-- `updateStatus` (`database.go`): append one row to the status table. -/
def updateStatus (now : Int) (s : RepoState) : RepoState :=
  { s with status := s.status ++ [⟨now, VERSION⟩] }

/-- The column values the INSERT statement binds for an event, with the
assigned row id. -/
def insRow (z : Tz) (e : EventData) (id : Int) : EventRow :=
  { id := id, version := e.Version, uuid := e.UUID, title := e.Title,
    start := dateTimeToUnix z e.Start, end_ := dateTimeToUnix z e.End,
    address := e.Address, info := e.Info, reminder := e.Reminder,
    done := Btoi e.Done, important := Btoi e.Important, urgent := Btoi e.Urgent,
    source := e.Source }

/-- The private `insertEvent` (`database.go`): INSERT a fresh row, set the
event's `ID` from `LastInsertId`, and append one status row. -/
def insertEvent (z : Tz) (now : Int) (e : EventData) (s : RepoState) : EventData × RepoState :=
  let id := freshId s.events
  ({ e with ID := id }, updateStatus now { s with events := s.events ++ [insRow z e id] })

/-- The effect of the UPDATE statement on one row: rows whose `uuid`
matches get every SET column overwritten (the id column is not SET), other
rows are untouched. -/
def updRow (z : Tz) (e : EventData) (r : EventRow) : EventRow :=
  if r.uuid == e.UUID then
    { r with
      version := e.Version, title := e.Title,
      start := dateTimeToUnix z e.Start, end_ := dateTimeToUnix z e.End,
      address := e.Address, info := e.Info, reminder := e.Reminder,
      done := Btoi e.Done, important := Btoi e.Important, urgent := Btoi e.Urgent,
      source := e.Source }
  else r

/-- The private `updateEvent` (`database.go`): UPDATE every row whose
`uuid` matches (SQL semantics), leaving ids in place, and append one status
row. -/
def updateEvent (z : Tz) (now : Int) (e : EventData) (s : RepoState) : EventData × RepoState :=
  (e, updateStatus now { s with events := s.events.map (updRow z e) })

/-- The body of `InsertEvent` after the UUID lookup: on a found row, adopt
its numeric id and compare content hashes — equal hashes mean no write at
all, different hashes mean an in-place update; on no row, insert. -/
def insertOrUpdateFound (z : Tz) (now : Int) (e : EventData) (s : RepoState) :
    Option EventRow → EventData × RepoState
  | some dbRow =>
    let dbEvent := convertRawEventRecordToEventData z dbRow
    let e' := { e with ID := dbEvent.ID }
    if dbEvent.Sha256 == e'.Sha256 then (e', s)
    else updateEvent z now e' s
  | none => insertEvent z now e s

/-- `InsertEvent` (`database.go`): look up the first row with the event's
UUID and dispatch on the result. -/
def InsertEvent (z : Tz) (now : Int) (e : EventData) (s : RepoState) : EventData × RepoState :=
  insertOrUpdateFound z now e s (s.events.find? (fun r => r.uuid == e.UUID))

/-- `DeleteEvent` (`database.go`): DELETE by UUID.  The returned boolean is
`true` whenever the statement executes, whether or not any row matched. -/
def DeleteEvent (e : EventData) (s : RepoState) : Bool × RepoState :=
  (true, { s with events := s.events.filter (fun r => r.uuid != e.UUID) })

/-- `GetEventsByTimeRange` (`database.go`):
`SELECT * FROM events WHERE end >= ? AND start <= ?`. -/
def GetEventsByTimeRange (z : Tz) (s : RepoState) (start end_ : Int) : List EventData :=
  (s.events.filter (fun r => decide (start ≤ r.end_) && decide (r.start ≤ end_))).map
    (convertRawEventRecordToEventData z)

structure ResponseStatus where
  type : String
  Success : Bool
  Message : String
deriving DecidableEq

structure GetStatusResp where
  type : String
  Timestamp : Int
  Status : ResponseStatus
  Version : String
deriving DecidableEq

/-- `GetStatus` (`database.go`): read the single row with the maximum
ROWID from the status table (the last appended row); with an empty table
the scan loop leaves the zero values in place.  (The Go code sets the
response discriminator to `ResponseStatusName`.) -/
def GetStatus (s : RepoState) : GetStatusResp :=
  match s.status.getLast? with
  | some row =>
    { type := ResponseStatusName, Timestamp := row.timestamp, Version := row.version,
      Status := { type := ResponseStatusName, Success := true, Message := "" } }
  | none =>
    { type := ResponseStatusName, Timestamp := 0, Version := "",
      Status := { type := ResponseStatusName, Success := true, Message := "" } }

/-- `AuthenticateUser` (`database.go`): scan all rows with the username —
the scan loop leaves the last matching row, or the zero-valued `User` when
none matches — then bcrypt-compare the supplied password against the
stored hash.  `verify` abstracts `bcrypt.CompareHashAndPassword`
succeeding (the library is outside the repository); the zero value's
stored hash is the empty string.  The second component is the returned
error, always `none` on this path. -/
def AuthenticateUser (verify : String → String → Bool) (s : RepoState)
    (username password : String) : Bool × Option String :=
  let user := ((s.users.filter (fun u => u.1 == username)).getLast?).getD ("", "")
  (verify password user.2, none)

/-! ## Tokens (`tokens.go`) -/

/-- `tokenLifeTime` (`tokens.go`): two minutes, in seconds. -/
def tokenLifeTime : Int := 120

structure JwtClaims where
  exp : Int
  authorized : Bool
  user : String
deriving DecidableEq

/-- `createJWT` (`tokens.go`): claims of a token issued at `now`. Signing
with the shared secret is outside the model; the claims are what
verification later reads back. -/
def createJWT (now : Int) (username : String) : JwtClaims :=
  { exp := now + tokenLifeTime, authorized := true, user := username }

/-- Outcome of `jwt.Parse` plus the claims casts in `validateJWT`:
`malformed` covers a nil token, a bad signature or a non-HMAC method;
`parsed` carries the `exp` claim when one is present as a number. -/
inductive TokenParse where
  | malformed
  | noClaims
  | parsed (exp : Option Int)
deriving DecidableEq

/-- `validateJWT` (`tokens.go`): the header/parse/claims checks followed by
the expiry comparison `int64(exp) < time.Now().Unix()`. -/
def validateJWT (header : Option TokenParse) (now : Int) : Except String Unit :=
  match header with
  | none => Except.error "failed to obtain token from HEADER"
  | some TokenParse.malformed => Except.error "there was an error during token parsing"
  | some TokenParse.noClaims => Except.error "there was an error during claims parsing"
  | some (TokenParse.parsed none) => Except.error "failed to obtain token expiration time"
  | some (TokenParse.parsed (some exp)) =>
    if exp < now then Except.error "token has expired" else Except.ok ()

/-! ## Handlers (`handlers.go`) -/

structure GetEventsReq where
  Start : DateTime
  End : DateTime
deriving DecidableEq

structure GetEventsResp where
  type : String
  Events : List EventData
  Status : ResponseStatus
deriving DecidableEq

inductive HandlerOut where
  | unauthorized (msg : String)
  | resp (r : GetEventsResp)
deriving DecidableEq

/-- `getEventsWithinTimeRange` (`handlers.go`): token check, body decode
(`none` models a missing or undecodable body), bound conversion, repository
query, and the response envelope.  On the success path the Go code fills
the envelope with `Success: false, Message: ""`. -/
def getEventsWithinTimeRange (z : Tz) (token : Option TokenParse) (now : Int)
    (body : Option GetEventsReq) (s : RepoState) : HandlerOut :=
  match validateJWT token now with
  | Except.error msg => HandlerOut.unauthorized msg
  | Except.ok _ =>
    match body with
    | none =>
      HandlerOut.resp
        { type := GetEventsRespName, Events := [],
          Status :=
            { type := ResponseStatusName, Success := false, Message := "Missing body." } }
    | some msgData =>
      let startUnix := dateTimeToUnix z msgData.Start
      let endUnix := dateTimeToUnix z msgData.End
      let result := GetEventsByTimeRange z s startUnix endUnix
      HandlerOut.resp
        { type := GetEventsRespName, Events := result,
          Status := { type := ResponseStatusName, Success := false, Message := "" } }

structure KillReq where
  Payload : String
deriving DecidableEq

structure KillResp where
  type : String
  Status : ResponseStatus
deriving DecidableEq

/-- Observable actions of the kill handler, in program order: writing the
JSON response, sleeping, and sending `syscall.SIGINT` on the server's
shutdown channel `srv.sigs` (the same channel OS signals arrive on). -/
inductive KillAction where
  | respond (r : KillResp)
  | sleep (seconds : Int)
  | signal
deriving DecidableEq

/-- `GracefulShutdownTimeout` (`structures.go`): two seconds. -/
def GracefulShutdownTimeout : Int := 2

/-- `killserver` (`handlers.go`) as its trace of observable actions. -/
def killserver (deadlyPackage : String) (request : KillReq) : List KillAction :=
  if request.Payload == deadlyPackage then
    [ KillAction.respond
        { type := KillRespName,
          Status :=
            { type := ResponseStatusName, Success := true,
              Message := "Server will shutdown in 2 seconds!" } },
      KillAction.sleep GracefulShutdownTimeout, KillAction.signal ]
  else
    [ KillAction.respond
        { type := KillRespName,
          Status :=
            { type := ResponseStatusName, Success := false,
              Message := "Package error!" } } ]

/-! ## Claim theorems -/

/-- C3: Temporal codec round-trip.  For every moment `m` representable in
the (well-formed) fixed zone — i.e. every `m` in the image of the decoder —
`unixToDateTime (dateTimeToUnix m) = m`. -/
theorem c3_temporal_codec_roundtrip (z : Tz) (hwf : z.WF = true) (m : DateTime)
    (hm : ∃ t : Int, unixToDateTime z t = m) :
    unixToDateTime z (dateTimeToUnix z m) = m := by
  obtain ⟨t, ht⟩ := hm
  rw [← ht]
  exact unix_roundtrip z hwf t

theorem c3_temporal_codec_roundtrip_witness :
    warsaw.WF = true ∧
      (∃ t : Int, unixToDateTime warsaw t = ⟨"DateTime", 2024, 2, 13, 12, 0⟩) ∧
      unixToDateTime warsaw (dateTimeToUnix warsaw ⟨"DateTime", 2024, 2, 13, 12, 0⟩) =
        ⟨"DateTime", 2024, 2, 13, 12, 0⟩ :=
  ⟨by decide, ⟨1707822000, by decide⟩,
    c3_temporal_codec_roundtrip warsaw (by decide) _ ⟨1707822000, by decide⟩⟩

/-- C4: Range query membership.  A stored row is returned by
`GetEventsByTimeRange a b` exactly when its stored interval satisfies
`end >= a AND start <= b`; the boundary-touching rows (`a = end` or
`b = start`) are included. -/
theorem c4_range_query_membership (z : Tz) (s : RepoState) (a b : Int) :
    (∀ r : EventRow, r ∈ s.events → a ≤ r.end_ → r.start ≤ b →
      convertRawEventRecordToEventData z r ∈ GetEventsByTimeRange z s a b) ∧
    (∀ x, x ∈ GetEventsByTimeRange z s a b →
      ∃ r : EventRow, r ∈ s.events ∧ a ≤ r.end_ ∧ r.start ≤ b ∧
        convertRawEventRecordToEventData z r = x) ∧
    (∀ r : EventRow, r ∈ s.events → r.end_ = a → r.start ≤ b →
      convertRawEventRecordToEventData z r ∈ GetEventsByTimeRange z s a b) ∧
    (∀ r : EventRow, r ∈ s.events → r.start = b → a ≤ r.end_ →
      convertRawEventRecordToEventData z r ∈ GetEventsByTimeRange z s a b) := by
  have hmem : ∀ r : EventRow, r ∈ s.events → a ≤ r.end_ → r.start ≤ b →
      convertRawEventRecordToEventData z r ∈ GetEventsByTimeRange z s a b := by
    intro r hr h1 h2
    unfold GetEventsByTimeRange
    apply List.mem_map_of_mem
    rw [List.mem_filter]
    exact ⟨hr, by simp only [Bool.and_eq_true, decide_eq_true_eq]; exact ⟨h1, h2⟩⟩
  refine ⟨hmem, ?_, ?_, ?_⟩
  · intro x hx
    unfold GetEventsByTimeRange at hx
    rw [List.mem_map] at hx
    obtain ⟨r, hr, hconv⟩ := hx
    rw [List.mem_filter] at hr
    have hcond := hr.2
    simp only [Bool.and_eq_true, decide_eq_true_eq] at hcond
    exact ⟨r, hr.1, hcond.1, hcond.2, hconv⟩
  · intro r hr h1 h2
    exact hmem r hr (by omega) h2
  · intro r hr h1 h2
    exact hmem r hr h2 (by omega)

theorem c4_range_query_membership_witness :
    (⟨1, "1.1.1", "u-1", "T", 10, 20, "A", "I", 7, 0, 1, 0, "APP"⟩ : EventRow) ∈
        (⟨[⟨1, "1.1.1", "u-1", "T", 10, 20, "A", "I", 7, 0, 1, 0, "APP"⟩], [], []⟩ :
          RepoState).events ∧
      (20 : Int) ≤ 20 ∧ (10 : Int) ≤ 10 ∧
      convertRawEventRecordToEventData warsaw
          ⟨1, "1.1.1", "u-1", "T", 10, 20, "A", "I", 7, 0, 1, 0, "APP"⟩ ∈
        GetEventsByTimeRange warsaw
          ⟨[⟨1, "1.1.1", "u-1", "T", 10, 20, "A", "I", 7, 0, 1, 0, "APP"⟩], [], []⟩ 20 10 :=
  ⟨by decide, by decide, by decide,
    (c4_range_query_membership warsaw
        ⟨[⟨1, "1.1.1", "u-1", "T", 10, 20, "A", "I", 7, 0, 1, 0, "APP"⟩], [], []⟩ 20 10).1
      ⟨1, "1.1.1", "u-1", "T", 10, 20, "A", "I", 7, 0, 1, 0, "APP"⟩
      (by decide) (by decide) (by decide)⟩

/-- C5 (counterexample): at the exact boundary instant `t = t0 + L` the
validation succeeds — the claim's `fails ... at t == t0+L` is false, because
the code's expiry test is the strict `int64(exp) < now`. -/
theorem c5_token_boundary_counterexample :
    (createJWT 0 "admin").exp = 0 + tokenLifeTime ∧
      validateJWT (some (TokenParse.parsed (some (createJWT 0 "admin").exp)))
        (0 + tokenLifeTime) = Except.ok () :=
  ⟨rfl, rfl⟩

/-- C5 (amended): a token issued at `t0` with lifetime `L = tokenLifeTime`
validates at every `t ≤ t0 + L` — including the boundary — and fails with
the expiry error at every `t > t0 + L`. -/
theorem c5_token_lifetime (t0 t : Int) (u : String) :
    (t ≤ t0 + tokenLifeTime →
      validateJWT (some (TokenParse.parsed (some (createJWT t0 u).exp))) t = Except.ok ()) ∧
    (t0 + tokenLifeTime < t →
      validateJWT (some (TokenParse.parsed (some (createJWT t0 u).exp))) t =
        Except.error "token has expired") := by
  constructor
  · intro h
    show (if t0 + tokenLifeTime < t then Except.error "token has expired" else Except.ok ()) =
      Except.ok ()
    rw [if_neg (by omega)]
  · intro h
    show (if t0 + tokenLifeTime < t then Except.error "token has expired" else Except.ok ()) =
      Except.error "token has expired"
    rw [if_pos h]

theorem c5_token_lifetime_witness :
    ((0 : Int) ≤ 0 + tokenLifeTime ∧
      validateJWT (some (TokenParse.parsed (some (createJWT 0 "admin").exp))) 0 =
        Except.ok ()) ∧
    ((0 : Int) + tokenLifeTime < 500 ∧
      validateJWT (some (TokenParse.parsed (some (createJWT 0 "admin").exp))) 500 =
        Except.error "token has expired") :=
  ⟨⟨by decide, (c5_token_lifetime 0 0 "admin").1 (by decide)⟩,
    ⟨by decide, (c5_token_lifetime 0 500 "admin").2 (by decide)⟩⟩

/-- C6 (counterexample): on an empty store — no row with the event's UUID —
`DeleteEvent` still returns `true`, so the boolean does not report whether a
row was affected. -/
theorem c6_delete_counterexample :
    (⟨[], [], []⟩ : RepoState).events = [] ∧
      (DeleteEvent
          ⟨"EventData", 0, "1.1.1", "u-1", "T", ⟨"DateTime", 2024, 2, 13, 12, 0⟩,
            ⟨"DateTime", 2024, 2, 13, 12, 0⟩, "A", "I", 7, false, true, false, "APP"⟩
          ⟨[], [], []⟩).1 = true :=
  ⟨rfl, rfl⟩

/-- C6 (amended): `DeleteEvent` removes exactly the rows carrying the
event's UUID, but its boolean result is `true` whenever the statement
executes — it does not report whether any row was affected. -/
theorem c6_delete_result (e : EventData) (s : RepoState) :
    (DeleteEvent e s).1 = true ∧
      (DeleteEvent e s).2 =
        { s with events := s.events.filter (fun r => r.uuid != e.UUID) } :=
  ⟨rfl, rfl⟩

/-- The hash `AuthenticateUser`'s scan loop ends up comparing against: that
of the last row with the username, or the zero `User`'s empty string. -/
def storedHashFor (s : RepoState) (username : String) : String :=
  (((s.users.filter (fun u => u.1 == username)).getLast?).getD ("", "")).2

/-- C7: authentication non-enumeration.  With any bcrypt verifier that
rejects the empty stored hash, an unknown username and a known username
with a non-matching password produce the identical result `(false, nil)`. -/
theorem c7_auth_non_enumeration (verify : String → String → Bool)
    (hv : ∀ p, verify p "" = false) (s : RepoState) (u1 p1 u2 p2 : String)
    (h1 : ∀ row ∈ s.users, row.1 ≠ u1)
    (h2 : verify p2 (storedHashFor s u2) = false) :
    AuthenticateUser verify s u1 p1 = (false, none) ∧
      AuthenticateUser verify s u2 p2 = (false, none) := by
  constructor
  · unfold AuthenticateUser
    have hfil : s.users.filter (fun u => u.1 == u1) = [] := by
      rw [List.filter_eq_nil_iff]
      intro a ha
      simp only [beq_iff_eq]
      exact h1 a ha
    rw [hfil]
    simp only [List.getLast?, Option.getD]
    rw [hv p1]
  · unfold storedHashFor at h2
    show (verify p2 ((List.filter (fun u => u.1 == u2) s.users).getLast?.getD ("", "")).2,
      (none : Option String)) = (false, none)
    rw [h2]

theorem c7_auth_non_enumeration_witness :
    ((fun p h => h == "H:" ++ p) "pw" "" = false ∧
      AuthenticateUser (fun p h => h == "H:" ++ p)
        ⟨[], [], [("bob", "H:pw")]⟩ "alice" "pw" = (false, none)) ∧
    ((fun p h => h == "H:" ++ p) "wrong" (storedHashFor ⟨[], [], [("bob", "H:pw")]⟩ "bob") =
        false ∧
      AuthenticateUser (fun p h => h == "H:" ++ p)
        ⟨[], [], [("bob", "H:pw")]⟩ "bob" "wrong" = (false, none)) := by
  have hv : ∀ p, (fun p h => h == "H:" ++ p) p "" = false := by
    intro p
    simp only [beq_eq_false_iff_ne, ne_eq]
    intro h
    have hlen : (0 : Nat) = 2 + p.length := by
      have := congrArg String.length h
      rw [String.length_append] at this
      exact this
    omega
  have := c7_auth_non_enumeration (fun p h => h == "H:" ++ p) hv
    ⟨[], [], [("bob", "H:pw")]⟩ "alice" "pw" "bob" "wrong"
    (by intro row hrow; simp only [List.mem_singleton] at hrow; subst hrow; decide)
    (by decide)
  exact ⟨⟨hv "pw", this.1⟩, ⟨by decide, this.2⟩⟩

/-- C9: kill-switch behaviour as the handler's action trace.  A wrong
payload yields a `success = false` response and no signal is ever sent; the
right payload yields the `success = true` response first, then the
fixed-delay sleep, then exactly one termination signal on the shutdown
channel — never a signal before the response. -/
theorem c9_killswitch (dp : String) (req : KillReq) :
    (req.Payload ≠ dp →
      killserver dp req =
        [KillAction.respond
          { type := KillRespName,
            Status :=
              { type := ResponseStatusName, Success := false,
                Message := "Package error!" } }] ∧
      KillAction.signal ∉ killserver dp req) ∧
    (req.Payload = dp →
      killserver dp req =
        [KillAction.respond
          { type := KillRespName,
            Status :=
              { type := ResponseStatusName, Success := true,
                Message := "Server will shutdown in 2 seconds!" } },
          KillAction.sleep GracefulShutdownTimeout, KillAction.signal] ∧
      (killserver dp req).count KillAction.signal = 1) := by
  constructor
  · intro h
    have hne : (req.Payload == dp) = false := beq_eq_false_iff_ne.mpr h
    unfold killserver
    rw [hne]
    constructor
    · rfl
    · intro hmem
      simp only [Bool.false_eq_true, ↓reduceIte, List.mem_singleton] at hmem
      exact KillAction.noConfusion hmem
  · intro h
    have heq : (req.Payload == dp) = true := beq_iff_eq.mpr h
    unfold killserver
    rw [heq]
    exact ⟨rfl, rfl⟩

theorem c9_killswitch_witness :
    (("boom" : String) ≠ "secret" ∧
      KillAction.signal ∉ killserver "secret" ⟨"boom"⟩) ∧
    (("secret" : String) = "secret" ∧
      (killserver "secret" ⟨"secret"⟩).count KillAction.signal = 1) :=
  ⟨⟨by decide, ((c9_killswitch "secret" ⟨"boom"⟩).1 (by decide)).2⟩,
    ⟨rfl, ((c9_killswitch "secret" ⟨"secret"⟩).2 rfl).2⟩⟩

/-- C10: on the success path of the range-query handler (valid token,
well-formed body, bounds converted, query performed) the response envelope
carries `Success = false` with an empty message even though the events list
is the populated query result. -/
theorem c10_range_success_envelope (z : Tz) (token : Option TokenParse) (now : Int)
    (req : GetEventsReq) (s : RepoState)
    (hTok : validateJWT token now = Except.ok ()) :
    getEventsWithinTimeRange z token now (some req) s =
      HandlerOut.resp
        { type := GetEventsRespName,
          Events := GetEventsByTimeRange z s (dateTimeToUnix z req.Start)
            (dateTimeToUnix z req.End),
          Status := { type := ResponseStatusName, Success := false, Message := "" } } := by
  unfold getEventsWithinTimeRange
  rw [hTok]

theorem c10_range_success_envelope_witness :
    validateJWT (some (TokenParse.parsed (some 200))) 100 = Except.ok () ∧
      getEventsWithinTimeRange warsaw (some (TokenParse.parsed (some 200))) 100
        (some ⟨⟨"DateTime", 2024, 2, 13, 0, 0⟩, ⟨"DateTime", 2024, 2, 13, 23, 59⟩⟩)
        ⟨[], [], []⟩ =
      HandlerOut.resp
        { type := GetEventsRespName,
          Events := GetEventsByTimeRange warsaw ⟨[], [], []⟩
            (dateTimeToUnix warsaw ⟨"DateTime", 2024, 2, 13, 0, 0⟩)
            (dateTimeToUnix warsaw ⟨"DateTime", 2024, 2, 13, 23, 59⟩),
          Status := { type := ResponseStatusName, Success := false, Message := "" } } :=
  ⟨rfl, c10_range_success_envelope warsaw (some (TokenParse.parsed (some 200))) 100
    ⟨⟨"DateTime", 2024, 2, 13, 0, 0⟩, ⟨"DateTime", 2024, 2, 13, 23, 59⟩⟩ ⟨[], [], []⟩ rfl⟩

theorem InsertEvent_eq_none (z : Tz) (now : Int) (e : EventData) (s : RepoState)
    (h : s.events.find? (fun r => r.uuid == e.UUID) = none) :
    InsertEvent z now e s = insertEvent z now e s := by
  unfold InsertEvent
  rw [h]
  rfl

theorem conv_ID (z : Tz) (r : EventRow) :
    (convertRawEventRecordToEventData z r).ID = r.id := rfl

theorem InsertEvent_eq_some (z : Tz) (now : Int) (e : EventData) (s : RepoState)
    (dbRow : EventRow) (h : s.events.find? (fun r => r.uuid == e.UUID) = some dbRow) :
    InsertEvent z now e s =
      (if (convertRawEventRecordToEventData z dbRow).Sha256 ==
          ({ e with ID := (convertRawEventRecordToEventData z dbRow).ID } : EventData).Sha256
        then ({ e with ID := (convertRawEventRecordToEventData z dbRow).ID }, s)
        else updateEvent z now
          { e with ID := (convertRawEventRecordToEventData z dbRow).ID } s) := by
  unfold InsertEvent
  rw [h]
  rfl

/-- C8 (counterexample): deleting an existing row mutates the event store
yet appends no StatusRecord, so "every mutation appends exactly one status
row" fails for deletes. -/
theorem c8_status_counterexample :
    (DeleteEvent
          ⟨"EventData", 1, "1.1.1", "u-1", "T", ⟨"DateTime", 2024, 2, 13, 12, 0⟩,
            ⟨"DateTime", 2024, 2, 13, 12, 0⟩, "A", "I", 7, false, true, false, "APP"⟩
          ⟨[⟨1, "1.1.1", "u-1", "T", 10, 20, "A", "I", 7, 0, 1, 0, "APP"⟩],
            [⟨100, "1.1.0"⟩], []⟩).2.events ≠
        (⟨[⟨1, "1.1.1", "u-1", "T", 10, 20, "A", "I", 7, 0, 1, 0, "APP"⟩],
          [⟨100, "1.1.0"⟩], []⟩ : RepoState).events ∧
      (DeleteEvent
          ⟨"EventData", 1, "1.1.1", "u-1", "T", ⟨"DateTime", 2024, 2, 13, 12, 0⟩,
            ⟨"DateTime", 2024, 2, 13, 12, 0⟩, "A", "I", 7, false, true, false, "APP"⟩
          ⟨[⟨1, "1.1.1", "u-1", "T", 10, 20, "A", "I", 7, 0, 1, 0, "APP"⟩],
            [⟨100, "1.1.0"⟩], []⟩).2.status =
        (⟨[⟨1, "1.1.1", "u-1", "T", 10, 20, "A", "I", 7, 0, 1, 0, "APP"⟩],
          [⟨100, "1.1.0"⟩], []⟩ : RepoState).status :=
  ⟨by decide, rfl⟩

/-- C8 (amended): inserting a new event and updating an existing one each
append exactly one StatusRecord row at the end of the table, a no-op upsert
and a delete append none, no operation ever rewrites or removes existing
status rows (each final status table extends the initial one), and
`GetStatus` reads exactly the most recently appended row. -/
theorem c8_status_audit (z : Tz) (now : Int) (e : EventData) (s : RepoState) :
    (s.events.find? (fun r => r.uuid == e.UUID) = none →
      (InsertEvent z now e s).2.status = s.status ++ [⟨now, VERSION⟩]) ∧
    (∀ dbRow, s.events.find? (fun r => r.uuid == e.UUID) = some dbRow →
      (convertRawEventRecordToEventData z dbRow).Sha256 ≠
        ({ e with ID := dbRow.id } : EventData).Sha256 →
      (InsertEvent z now e s).2.status = s.status ++ [⟨now, VERSION⟩]) ∧
    (∀ dbRow, s.events.find? (fun r => r.uuid == e.UUID) = some dbRow →
      (convertRawEventRecordToEventData z dbRow).Sha256 =
        ({ e with ID := dbRow.id } : EventData).Sha256 →
      (InsertEvent z now e s).2.status = s.status) ∧
    ((DeleteEvent e s).2.status = s.status) ∧
    (∀ row, s.status.getLast? = some row →
      GetStatus s =
        { type := ResponseStatusName, Timestamp := row.timestamp, Version := row.version,
          Status := { type := ResponseStatusName, Success := true, Message := "" } }) := by
  refine ⟨?_, ?_, ?_, rfl, ?_⟩
  · intro h
    rw [InsertEvent_eq_none z now e s h]
    rfl
  · intro dbRow h hne
    rw [InsertEvent_eq_some z now e s dbRow h, conv_ID]
    have hb : ((convertRawEventRecordToEventData z dbRow).Sha256 ==
        ({ e with ID := dbRow.id } : EventData).Sha256) = false :=
      beq_eq_false_iff_ne.mpr hne
    rw [hb]
    simp only [Bool.false_eq_true, ↓reduceIte]
    rfl
  · intro dbRow h heq
    rw [InsertEvent_eq_some z now e s dbRow h, conv_ID]
    have hb : ((convertRawEventRecordToEventData z dbRow).Sha256 ==
        ({ e with ID := dbRow.id } : EventData).Sha256) = true := beq_iff_eq.mpr heq
    rw [hb]
    simp only [↓reduceIte]
  · intro row hrow
    unfold GetStatus
    rw [hrow]

theorem c8_status_audit_witness :
    ((⟨[], [⟨50, "1.1.0"⟩], []⟩ : RepoState).events.find?
        (fun r => r.uuid ==
          (⟨"EventData", 0, "1.1.1", "u-1", "T", ⟨"DateTime", 2024, 2, 13, 12, 0⟩,
            ⟨"DateTime", 2024, 2, 13, 12, 0⟩, "A", "I", 7, false, true, false,
            "APP"⟩ : EventData).UUID) = none ∧
      (InsertEvent warsaw 100
          ⟨"EventData", 0, "1.1.1", "u-1", "T", ⟨"DateTime", 2024, 2, 13, 12, 0⟩,
            ⟨"DateTime", 2024, 2, 13, 12, 0⟩, "A", "I", 7, false, true, false, "APP"⟩
          ⟨[], [⟨50, "1.1.0"⟩], []⟩).2.status =
        (⟨[], [⟨50, "1.1.0"⟩], []⟩ : RepoState).status ++ [⟨100, VERSION⟩]) ∧
    ((⟨[], [⟨50, "1.1.0"⟩], []⟩ : RepoState).status.getLast? = some ⟨50, "1.1.0"⟩ ∧
      GetStatus ⟨[], [⟨50, "1.1.0"⟩], []⟩ =
        { type := ResponseStatusName, Timestamp := 50, Version := "1.1.0",
          Status := { type := ResponseStatusName, Success := true, Message := "" } }) :=
  ⟨⟨rfl,
      (c8_status_audit warsaw 100
          ⟨"EventData", 0, "1.1.1", "u-1", "T", ⟨"DateTime", 2024, 2, 13, 12, 0⟩,
            ⟨"DateTime", 2024, 2, 13, 12, 0⟩, "A", "I", 7, false, true, false, "APP"⟩
          ⟨[], [⟨50, "1.1.0"⟩], []⟩).1 rfl⟩,
    ⟨rfl,
      (c8_status_audit warsaw 100
          ⟨"EventData", 0, "1.1.1", "u-1", "T", ⟨"DateTime", 2024, 2, 13, 12, 0⟩,
            ⟨"DateTime", 2024, 2, 13, 12, 0⟩, "A", "I", 7, false, true, false, "APP"⟩
          ⟨[], [⟨50, "1.1.0"⟩], []⟩).2.2.2.2 ⟨50, "1.1.0"⟩ rfl⟩⟩

theorem ToString_congr (e1 e2 : EventData)
    (h1 : e1.Version = e2.Version) (h2 : e1.UUID = e2.UUID) (h3 : e1.Title = e2.Title)
    (h4 : e1.Start = e2.Start) (h5 : e1.End = e2.End) (h6 : e1.Address = e2.Address)
    (h7 : e1.Info = e2.Info) (h8 : e1.Reminder = e2.Reminder) (h9 : e1.Done = e2.Done)
    (h10 : e1.Important = e2.Important) (h11 : e1.Urgent = e2.Urgent) :
    e1.ToString = e2.ToString := by
  unfold EventData.ToString
  rw [h1, h2, h3, h4, h5, h6, h7, h8, h9, h10, h11]

set_option maxRecDepth 100000 in
/-- C2 (counterexample): two events agreeing on UUID and every field except
the source tag serialize identically, hash identically, and a re-submission
with the changed source is treated as semantically equal — `InsertEvent`
performs no update (state unchanged), contrary to the claim. -/
theorem c2_source_counterexample :
    (⟨"EventData", 0, "1.1.1", "u-1", "T", ⟨"DateTime", 2024, 2, 13, 12, 0⟩,
        ⟨"DateTime", 2024, 2, 13, 12, 0⟩, "A", "I", 7, false, true, false,
        "APP"⟩ : EventData).Sha256 =
      (⟨"EventData", 0, "1.1.1", "u-1", "T", ⟨"DateTime", 2024, 2, 13, 12, 0⟩,
        ⟨"DateTime", 2024, 2, 13, 12, 0⟩, "A", "I", 7, false, true, false,
        "WEB"⟩ : EventData).Sha256 ∧
    (⟨"EventData", 0, "1.1.1", "u-1", "T", ⟨"DateTime", 2024, 2, 13, 12, 0⟩,
        ⟨"DateTime", 2024, 2, 13, 12, 0⟩, "A", "I", 7, false, true, false,
        "APP"⟩ : EventData).Source ≠
      (⟨"EventData", 0, "1.1.1", "u-1", "T", ⟨"DateTime", 2024, 2, 13, 12, 0⟩,
        ⟨"DateTime", 2024, 2, 13, 12, 0⟩, "A", "I", 7, false, true, false,
        "WEB"⟩ : EventData).Source ∧
    InsertEvent warsaw 200
        ⟨"EventData", 0, "1.1.1", "u-1", "T", ⟨"DateTime", 2024, 2, 13, 12, 0⟩,
          ⟨"DateTime", 2024, 2, 13, 12, 0⟩, "A", "I", 7, false, true, false, "WEB"⟩
        (InsertEvent warsaw 100
          ⟨"EventData", 0, "1.1.1", "u-1", "T", ⟨"DateTime", 2024, 2, 13, 12, 0⟩,
            ⟨"DateTime", 2024, 2, 13, 12, 0⟩, "A", "I", 7, false, true, false, "APP"⟩
          ⟨[], [], []⟩).2 =
      (⟨"EventData", 1, "1.1.1", "u-1", "T", ⟨"DateTime", 2024, 2, 13, 12, 0⟩,
          ⟨"DateTime", 2024, 2, 13, 12, 0⟩, "A", "I", 7, false, true, false, "WEB"⟩,
        (InsertEvent warsaw 100
          ⟨"EventData", 0, "1.1.1", "u-1", "T", ⟨"DateTime", 2024, 2, 13, 12, 0⟩,
            ⟨"DateTime", 2024, 2, 13, 12, 0⟩, "A", "I", 7, false, true, false, "APP"⟩
          ⟨[], [], []⟩).2) :=
  ⟨rfl, by decide, by decide⟩

/-- C2 (amended): the content hash is computed over the canonical
serialization of `Version, UUID, Title, Start, End, Address, Info,
Reminder, Done, Important, Urgent` — every stored field except the numeric
id, the `__type__` tags, and the source tag.  Changing the source alone
never changes the hash; changing any single hashed field (for the moments,
keeping the bookkeeping type tag) always changes it; and whenever the
stored row's hash differs from the incoming event's, `InsertEvent`
performs the in-place update. -/
theorem c2_content_hash (z : Tz) (now : Int) :
    (∀ (e : EventData) (x : String),
      ({ e with Source := x } : EventData).Sha256 = e.Sha256) ∧
    (∀ (e : EventData) (x : String), x ≠ e.Version →
      ({ e with Version := x } : EventData).Sha256 ≠ e.Sha256) ∧
    (∀ (e : EventData) (x : String), x ≠ e.UUID →
      ({ e with UUID := x } : EventData).Sha256 ≠ e.Sha256) ∧
    (∀ (e : EventData) (x : String), x ≠ e.Title →
      ({ e with Title := x } : EventData).Sha256 ≠ e.Sha256) ∧
    (∀ (e : EventData) (x : DateTime), x.type = e.Start.type → x ≠ e.Start →
      ({ e with Start := x } : EventData).Sha256 ≠ e.Sha256) ∧
    (∀ (e : EventData) (x : DateTime), x.type = e.End.type → x ≠ e.End →
      ({ e with End := x } : EventData).Sha256 ≠ e.Sha256) ∧
    (∀ (e : EventData) (x : String), x ≠ e.Address →
      ({ e with Address := x } : EventData).Sha256 ≠ e.Sha256) ∧
    (∀ (e : EventData) (x : String), x ≠ e.Info →
      ({ e with Info := x } : EventData).Sha256 ≠ e.Sha256) ∧
    (∀ (e : EventData) (x : Int), x ≠ e.Reminder →
      ({ e with Reminder := x } : EventData).Sha256 ≠ e.Sha256) ∧
    (∀ (e : EventData) (x : Bool), x ≠ e.Done →
      ({ e with Done := x } : EventData).Sha256 ≠ e.Sha256) ∧
    (∀ (e : EventData) (x : Bool), x ≠ e.Important →
      ({ e with Important := x } : EventData).Sha256 ≠ e.Sha256) ∧
    (∀ (e : EventData) (x : Bool), x ≠ e.Urgent →
      ({ e with Urgent := x } : EventData).Sha256 ≠ e.Sha256) ∧
    (∀ (e : EventData) (s : RepoState) (dbRow : EventRow),
      s.events.find? (fun r => r.uuid == e.UUID) = some dbRow →
      (convertRawEventRecordToEventData z dbRow).Sha256 ≠
        ({ e with ID := dbRow.id } : EventData).Sha256 →
      InsertEvent z now e s = updateEvent z now { e with ID := dbRow.id } s) := by
  refine ⟨?_, ?_, ?_, ?_, ?_, ?_, ?_, ?_, ?_, ?_, ?_, ?_, ?_⟩
  · intro e x
    rfl
  · intro e x hne heq
    exact hne (ToString_version_inj { e with Version := x } e rfl rfl rfl rfl rfl rfl rfl rfl
      rfl rfl heq)
  · intro e x hne heq
    exact hne (ToString_uuid_inj { e with UUID := x } e rfl rfl rfl rfl rfl rfl rfl rfl
      rfl rfl heq)
  · intro e x hne heq
    exact hne (ToString_title_inj { e with Title := x } e rfl rfl rfl rfl rfl rfl rfl rfl
      rfl rfl heq)
  · intro e x ht hne heq
    exact hne (ToString_start_inj { e with Start := x } e rfl rfl rfl rfl rfl rfl rfl rfl
      rfl rfl ht heq)
  · intro e x ht hne heq
    exact hne (ToString_end_inj { e with End := x } e rfl rfl rfl rfl rfl rfl rfl rfl
      rfl rfl ht heq)
  · intro e x hne heq
    exact hne (ToString_address_inj { e with Address := x } e rfl rfl rfl rfl rfl rfl rfl rfl
      rfl rfl heq)
  · intro e x hne heq
    exact hne (ToString_info_inj { e with Info := x } e rfl rfl rfl rfl rfl rfl rfl rfl
      rfl rfl heq)
  · intro e x hne heq
    exact hne (ToString_reminder_inj { e with Reminder := x } e rfl rfl rfl rfl rfl rfl rfl rfl
      rfl rfl heq)
  · intro e x hne heq
    exact hne (ToString_done_inj { e with Done := x } e rfl rfl rfl rfl rfl rfl rfl rfl
      rfl rfl heq)
  · intro e x hne heq
    exact hne (ToString_important_inj { e with Important := x } e rfl rfl rfl rfl rfl rfl rfl
      rfl rfl rfl heq)
  · intro e x hne heq
    exact hne (ToString_urgent_inj { e with Urgent := x } e rfl rfl rfl rfl rfl rfl rfl rfl
      rfl rfl heq)
  · intro e s dbRow h hne
    rw [InsertEvent_eq_some z now e s dbRow h, conv_ID]
    have hb : ((convertRawEventRecordToEventData z dbRow).Sha256 ==
        ({ e with ID := dbRow.id } : EventData).Sha256) = false :=
      beq_eq_false_iff_ne.mpr hne
    rw [hb]
    simp only [Bool.false_eq_true, ↓reduceIte]

theorem c2_content_hash_witness :
    ({ (⟨"EventData", 0, "1.1.1", "u-1", "T", ⟨"DateTime", 2024, 2, 13, 12, 0⟩,
          ⟨"DateTime", 2024, 2, 13, 12, 0⟩, "A", "I", 7, false, true, false,
          "APP"⟩ : EventData) with Source := "WEB" } : EventData).Sha256 =
      (⟨"EventData", 0, "1.1.1", "u-1", "T", ⟨"DateTime", 2024, 2, 13, 12, 0⟩,
        ⟨"DateTime", 2024, 2, 13, 12, 0⟩, "A", "I", 7, false, true, false,
        "APP"⟩ : EventData).Sha256 ∧
    (("B" : String) ≠
        (⟨"EventData", 0, "1.1.1", "u-1", "T", ⟨"DateTime", 2024, 2, 13, 12, 0⟩,
          ⟨"DateTime", 2024, 2, 13, 12, 0⟩, "A", "I", 7, false, true, false,
          "APP"⟩ : EventData).Title ∧
      ({ (⟨"EventData", 0, "1.1.1", "u-1", "T", ⟨"DateTime", 2024, 2, 13, 12, 0⟩,
            ⟨"DateTime", 2024, 2, 13, 12, 0⟩, "A", "I", 7, false, true, false,
            "APP"⟩ : EventData) with Title := "B" } : EventData).Sha256 ≠
        (⟨"EventData", 0, "1.1.1", "u-1", "T", ⟨"DateTime", 2024, 2, 13, 12, 0⟩,
          ⟨"DateTime", 2024, 2, 13, 12, 0⟩, "A", "I", 7, false, true, false,
          "APP"⟩ : EventData).Sha256) :=
  ⟨(c2_content_hash warsaw 100).1
      ⟨"EventData", 0, "1.1.1", "u-1", "T", ⟨"DateTime", 2024, 2, 13, 12, 0⟩,
        ⟨"DateTime", 2024, 2, 13, 12, 0⟩, "A", "I", 7, false, true, false, "APP"⟩ "WEB",
    ⟨by decide,
      (c2_content_hash warsaw 100).2.2.2.1
        ⟨"EventData", 0, "1.1.1", "u-1", "T", ⟨"DateTime", 2024, 2, 13, 12, 0⟩,
          ⟨"DateTime", 2024, 2, 13, 12, 0⟩, "A", "I", 7, false, true, false, "APP"⟩
        "B" (by decide)⟩⟩

theorem Btoi_beq_one (b : Bool) : (Btoi b == 1) = b := by cases b <;> rfl

theorem updRow_uuid (z : Tz) (e : EventData) (r : EventRow) : (updRow z e r).uuid = r.uuid := by
  unfold updRow
  split <;> rfl

theorem updRow_id (z : Tz) (e : EventData) (r : EventRow) : (updRow z e r).id = r.id := by
  unfold updRow
  split <;> rfl

/-- Reading back a freshly inserted row reproduces the event's canonical
serialization, provided both stored moments survive the codec round trip. -/
theorem conv_insRow (z : Tz) (e : EventData) (id : Int)
    (hS : unixToDateTime z (dateTimeToUnix z e.Start) = e.Start)
    (hE : unixToDateTime z (dateTimeToUnix z e.End) = e.End) :
    (convertRawEventRecordToEventData z (insRow z e id)).ToString = e.ToString := by
  apply ToString_congr <;> first | rfl | exact hS | exact hE | exact Btoi_beq_one _

/-- Reading back an updated matching row reproduces the updating event's
canonical serialization under the same round-trip proviso. -/
theorem conv_updRow (z : Tz) (e : EventData) (r : EventRow)
    (hm : (r.uuid == e.UUID) = true)
    (hS : unixToDateTime z (dateTimeToUnix z e.Start) = e.Start)
    (hE : unixToDateTime z (dateTimeToUnix z e.End) = e.End) :
    (convertRawEventRecordToEventData z (updRow z e r)).ToString = e.ToString := by
  unfold updRow
  rw [hm]
  simp only [↓reduceIte]
  apply ToString_congr <;>
    first | rfl | exact beq_iff_eq.mp hm | exact hS | exact hE | exact Btoi_beq_one _

set_option maxRecDepth 100000 in
/-- C1 (counterexample): for an event whose start moment carries a
non-canonical `__type__` tag, two successive identical submissions do not
leave the store unchanged: the second call performs an in-place update and
appends another StatusRecord, so the stored state after the second call
differs from the state after the first. -/
theorem c1_upsert_counterexample :
    (InsertEvent warsaw 101
        (InsertEvent warsaw 100
          ⟨"EventData", 0, "1.1.1", "u-1", "T", ⟨"X", 2024, 2, 13, 12, 0⟩,
            ⟨"DateTime", 2024, 2, 13, 12, 0⟩, "A", "I", 7, false, true, false, "APP"⟩
          ⟨[], [], []⟩).1
        (InsertEvent warsaw 100
          ⟨"EventData", 0, "1.1.1", "u-1", "T", ⟨"X", 2024, 2, 13, 12, 0⟩,
            ⟨"DateTime", 2024, 2, 13, 12, 0⟩, "A", "I", 7, false, true, false, "APP"⟩
          ⟨[], [], []⟩).2).2 ≠
      (InsertEvent warsaw 100
        ⟨"EventData", 0, "1.1.1", "u-1", "T", ⟨"X", 2024, 2, 13, 12, 0⟩,
          ⟨"DateTime", 2024, 2, 13, 12, 0⟩, "A", "I", 7, false, true, false, "APP"⟩
        ⟨[], [], []⟩).2 ∧
    (InsertEvent warsaw 101
        (InsertEvent warsaw 100
          ⟨"EventData", 0, "1.1.1", "u-1", "T", ⟨"X", 2024, 2, 13, 12, 0⟩,
            ⟨"DateTime", 2024, 2, 13, 12, 0⟩, "A", "I", 7, false, true, false, "APP"⟩
          ⟨[], [], []⟩).1
        (InsertEvent warsaw 100
          ⟨"EventData", 0, "1.1.1", "u-1", "T", ⟨"X", 2024, 2, 13, 12, 0⟩,
            ⟨"DateTime", 2024, 2, 13, 12, 0⟩, "A", "I", 7, false, true, false, "APP"⟩
          ⟨[], [], []⟩).2).2.status.length = 2 ∧
    (InsertEvent warsaw 100
        ⟨"EventData", 0, "1.1.1", "u-1", "T", ⟨"X", 2024, 2, 13, 12, 0⟩,
          ⟨"DateTime", 2024, 2, 13, 12, 0⟩, "A", "I", 7, false, true, false, "APP"⟩
        ⟨[], [], []⟩).2.status.length = 1 :=
  ⟨by decide, by decide, by decide⟩

/-- C1 (amended): when a row with the event's UUID exists and the content
hashes match, `InsertEvent` performs no write and returns the event with
the stored row's numeric id — exactly as claimed.  The two-call convergence
holds for events whose start and end moments survive the storage round
trip (canonical type tag, representable moment): the second identical call
leaves the whole stored state (events and status audit rows) unchanged and
returns the same event, and — when the UUID occupied at most one row to
begin with — exactly one row carries the UUID afterwards. -/
theorem c1_upsert_idempotent (z : Tz) (now1 now2 : Int) :
    (∀ (e : EventData) (s : RepoState) (dbRow : EventRow),
      s.events.find? (fun r => r.uuid == e.UUID) = some dbRow →
      (convertRawEventRecordToEventData z dbRow).Sha256 =
        ({ e with ID := dbRow.id } : EventData).Sha256 →
      InsertEvent z now1 e s = ({ e with ID := dbRow.id }, s)) ∧
    (∀ (e : EventData) (s : RepoState),
      unixToDateTime z (dateTimeToUnix z e.Start) = e.Start →
      unixToDateTime z (dateTimeToUnix z e.End) = e.End →
      s.events.countP (fun r => r.uuid == e.UUID) ≤ 1 →
      InsertEvent z now2 (InsertEvent z now1 e s).1 (InsertEvent z now1 e s).2 =
        ((InsertEvent z now1 e s).1, (InsertEvent z now1 e s).2) ∧
      (InsertEvent z now1 e s).2.events.countP (fun r => r.uuid == e.UUID) = 1) := by
  constructor
  · intro e s dbRow hfind hhash
    rw [InsertEvent_eq_some z now1 e s dbRow hfind, conv_ID, beq_iff_eq.mpr hhash]
    simp only [↓reduceIte]
  · intro e s hS hE hcount
    cases hfind : s.events.find? (fun r => r.uuid == e.UUID) with
    | none =>
      rw [InsertEvent_eq_none z now1 e s hfind]
      have hzero : s.events.countP (fun r => r.uuid == e.UUID) = 0 :=
        List.countP_eq_zero.mpr (List.find?_eq_none.mp hfind)
      have hprow : ((insRow z e (freshId s.events)).uuid == e.UUID) = true := by
        simp [insRow]
      have hfind2 : (s.events ++ [insRow z e (freshId s.events)]).find?
          (fun r => r.uuid == e.UUID) = some (insRow z e (freshId s.events)) := by
        rw [List.find?_append, hfind, Option.none_or]
        exact List.find?_cons_of_pos _ hprow
      constructor
      · rw [InsertEvent_eq_some z now2 (insertEvent z now1 e s).1 (insertEvent z now1 e s).2
          (insRow z e (freshId s.events)) (by exact hfind2), conv_ID]
        have hhash : (convertRawEventRecordToEventData z
            (insRow z e (freshId s.events))).Sha256 =
            ({ (insertEvent z now1 e s).1 with
                ID := (insRow z e (freshId s.events)).id } : EventData).Sha256 := by
          show (convertRawEventRecordToEventData z (insRow z e (freshId s.events))).ToString =
            ({ (insertEvent z now1 e s).1 with
                ID := (insRow z e (freshId s.events)).id } : EventData).ToString
          rw [conv_insRow z e (freshId s.events) hS hE]
          rfl
        rw [beq_iff_eq.mpr hhash]
        simp only [↓reduceIte]
        rfl
      · show (s.events ++ [insRow z e (freshId s.events)]).countP
          (fun r => r.uuid == e.UUID) = 1
        rw [List.countP_append, hzero]
        simp [List.countP_cons, hprow]
    | some dbRow =>
      have hpdb : (dbRow.uuid == e.UUID) = true := by
        have h := List.find?_some hfind
        exact h
      have hone : s.events.countP (fun r => r.uuid == e.UUID) = 1 := by
        have : 0 < s.events.countP (fun r => r.uuid == e.UUID) :=
          List.countP_pos_iff.mpr ⟨dbRow, List.mem_of_find?_eq_some hfind, hpdb⟩
        omega
      rw [InsertEvent_eq_some z now1 e s dbRow hfind, conv_ID]
      by_cases hh : (convertRawEventRecordToEventData z dbRow).Sha256 =
          ({ e with ID := dbRow.id } : EventData).Sha256
      · rw [beq_iff_eq.mpr hh]
        simp only [↓reduceIte]
        constructor
        · rw [InsertEvent_eq_some z now2 { e with ID := dbRow.id } s dbRow (by exact hfind),
            conv_ID]
          rw [beq_iff_eq.mpr (show (convertRawEventRecordToEventData z dbRow).Sha256 =
            ({ ({ e with ID := dbRow.id } : EventData) with
                ID := dbRow.id } : EventData).Sha256 from hh)]
          simp only [↓reduceIte]
        · exact hone
      · rw [beq_eq_false_iff_ne.mpr hh]
        simp only [Bool.false_eq_true, ↓reduceIte]
        have hm : (dbRow.uuid == ({ e with ID := dbRow.id } : EventData).UUID) = true := hpdb
        have hfind2 : (s.events.map (updRow z { e with ID := dbRow.id })).find?
            (fun r => r.uuid == e.UUID) =
            some (updRow z { e with ID := dbRow.id } dbRow) := by
          rw [List.find?_map]
          have hcomp : ((fun (r : EventRow) => r.uuid == e.UUID) ∘
              (updRow z { e with ID := dbRow.id })) = (fun r => r.uuid == e.UUID) := by
            funext r
            simp only [Function.comp]
            rw [updRow_uuid]
          rw [hcomp, hfind]
          rfl
        constructor
        · rw [InsertEvent_eq_some z now2 (updateEvent z now1 { e with ID := dbRow.id } s).1
            (updateEvent z now1 { e with ID := dbRow.id } s).2
            (updRow z { e with ID := dbRow.id } dbRow) (by exact hfind2), conv_ID]
          have hhash2 : (convertRawEventRecordToEventData z
              (updRow z { e with ID := dbRow.id } dbRow)).Sha256 =
              ({ (updateEvent z now1 { e with ID := dbRow.id } s).1 with
                  ID := (updRow z { e with ID := dbRow.id } dbRow).id } : EventData).Sha256 := by
            show (convertRawEventRecordToEventData z
              (updRow z { e with ID := dbRow.id } dbRow)).ToString =
              ({ (updateEvent z now1 { e with ID := dbRow.id } s).1 with
                  ID := (updRow z { e with ID := dbRow.id } dbRow).id } : EventData).ToString
            rw [conv_updRow z { e with ID := dbRow.id } dbRow hm (by exact hS) (by exact hE)]
            rfl
          rw [beq_iff_eq.mpr hhash2]
          simp only [↓reduceIte]
          rw [updRow_id]
          rfl
        · show (s.events.map (updRow z { e with ID := dbRow.id })).countP
            (fun r => r.uuid == e.UUID) = 1
          rw [List.countP_map]
          have hcomp : ((fun (r : EventRow) => r.uuid == e.UUID) ∘
              (updRow z { e with ID := dbRow.id })) = (fun r => r.uuid == e.UUID) := by
            funext r
            simp only [Function.comp]
            rw [updRow_uuid]
          rw [hcomp]
          exact hone

theorem c1_upsert_idempotent_witness :
    (unixToDateTime warsaw (dateTimeToUnix warsaw
        (⟨"EventData", 0, "1.1.1", "u-1", "T", ⟨"DateTime", 2024, 2, 13, 12, 0⟩,
          ⟨"DateTime", 2024, 2, 13, 14, 0⟩, "A", "I", 7, false, true, false,
          "APP"⟩ : EventData).Start) =
        (⟨"EventData", 0, "1.1.1", "u-1", "T", ⟨"DateTime", 2024, 2, 13, 12, 0⟩,
          ⟨"DateTime", 2024, 2, 13, 14, 0⟩, "A", "I", 7, false, true, false,
          "APP"⟩ : EventData).Start ∧
      (⟨[], [], []⟩ : RepoState).events.countP
        (fun r => r.uuid ==
          (⟨"EventData", 0, "1.1.1", "u-1", "T", ⟨"DateTime", 2024, 2, 13, 12, 0⟩,
            ⟨"DateTime", 2024, 2, 13, 14, 0⟩, "A", "I", 7, false, true, false,
            "APP"⟩ : EventData).UUID) ≤ 1) ∧
    InsertEvent warsaw 101
        (InsertEvent warsaw 100
          ⟨"EventData", 0, "1.1.1", "u-1", "T", ⟨"DateTime", 2024, 2, 13, 12, 0⟩,
            ⟨"DateTime", 2024, 2, 13, 14, 0⟩, "A", "I", 7, false, true, false, "APP"⟩
          ⟨[], [], []⟩).1
        (InsertEvent warsaw 100
          ⟨"EventData", 0, "1.1.1", "u-1", "T", ⟨"DateTime", 2024, 2, 13, 12, 0⟩,
            ⟨"DateTime", 2024, 2, 13, 14, 0⟩, "A", "I", 7, false, true, false, "APP"⟩
          ⟨[], [], []⟩).2 =
      ((InsertEvent warsaw 100
          ⟨"EventData", 0, "1.1.1", "u-1", "T", ⟨"DateTime", 2024, 2, 13, 12, 0⟩,
            ⟨"DateTime", 2024, 2, 13, 14, 0⟩, "A", "I", 7, false, true, false, "APP"⟩
          ⟨[], [], []⟩).1,
        (InsertEvent warsaw 100
          ⟨"EventData", 0, "1.1.1", "u-1", "T", ⟨"DateTime", 2024, 2, 13, 12, 0⟩,
            ⟨"DateTime", 2024, 2, 13, 14, 0⟩, "A", "I", 7, false, true, false, "APP"⟩
          ⟨[], [], []⟩).2) :=
  ⟨⟨by decide, by decide⟩,
    ((c1_upsert_idempotent warsaw 100 101).2
      ⟨"EventData", 0, "1.1.1", "u-1", "T", ⟨"DateTime", 2024, 2, 13, 12, 0⟩,
        ⟨"DateTime", 2024, 2, 13, 14, 0⟩, "A", "I", 7, false, true, false, "APP"⟩
      ⟨[], [], []⟩ (by decide) (by decide) (by decide)).1⟩

end EventsHub
